import Mathlib

/-!
# HGT elevation tiles (package `hgt`): embedding and verified properties

The Go package reads SRTM-style `.hgt` raster tiles.  This file embeds

* the tile addressing arithmetic (`pad`, `cpad`, `fileName`, `byteOffset`),
* the single-tile reader (`Open`, `File.ElevationAt`, `DefaultRangeValidator`),
* the directory layer with its handle cache (`DefaultCache`, `OpenDataDir`,
  `DataDir.ElevationAt`, `DataDir.Close`),

and proves properties of them.

## Modelling conventions

* A Go `string` is its byte sequence, written `List Char` with one `Char` per
  byte, so `len` is `List.length` and `s[i:j]` is `slice s i j`.
* A `float64` coordinate is a rational number.  `math.Floor`, `math.Abs`,
  negation, `+ 1` on small integers and the comparisons used by `fileName` and
  by the tile validation are exact on finite floats, so nothing is lost there;
  NaN and the infinities are outside the model.  In `byteOffset` the
  subtraction and the product are taken exactly (no rounding) and the `int64`
  arithmetic does not wrap; the grid sides `Open` produces (1201 and 3601)
  are far from the `int64` range.
* `int`, `int16` and `int64` values are integers; the only narrowing conversion
  in the package, the big-endian `int16` decode, is explicit in `decodeInt16`.
* A Go `error` is a value of `GoError`; a nil error is `none`.
* The operating system is an explicit `World`: the files on disk, the open
  descriptors, and the stores behind the default caches.
-/

namespace hgt

/-! ## Strings and the standard-library functions the package calls -/

/-- A Go string, as its sequence of bytes. -/
abbrev GoString := List Char

/-- The Go slice expression `s[i:j]`. -/
def slice (s : GoString) (i j : Nat) : GoString := (s.drop i).take (j - i)

/-- Go `strings.Repeat`. -/
def Repeat (s : GoString) (count : Nat) : GoString := (List.replicate count s).flatten

/-- Go `strings.TrimSuffix`: drop `suffix` from the end of `s` when it is there. -/
def TrimSuffix (s suffix : GoString) : GoString :=
  if suffix.isSuffixOf s then s.take (s.length - suffix.length) else s

/-- Backward scan of `filepath.Ext`: `rev` is the part of the path still to be
scanned, last byte first, and `acc` the bytes already passed. -/
def extScan : List Char → GoString → GoString
  | [], _ => []
  | c :: rev, acc =>
    if c = '/' then []
    else if c = '.' then c :: acc
    else extScan rev (c :: acc)

/-- Go `filepath.Ext`: the suffix starting at the last dot of the last path
element, empty when there is none. -/
def Ext (path : GoString) : GoString := extScan path.reverse []

/-- Go `strconv.Itoa`. -/
def Itoa (i : Int) : GoString :=
  if i < 0 then '-' :: Nat.toDigits 10 i.natAbs else Nat.toDigits 10 i.toNat

/-- Go `strconv.ParseFloat(s, 64)` with the error dropped, on the inputs the
package gives it: a non-empty run of decimal digits yields its value; on any
other input the result is 0, as Go returns on a syntax error (the other
syntaxes Go accepts are never passed by the package). -/
def ParseFloat (s : GoString) : ℚ :=
  if s ≠ [] ∧ s.all Char.isDigit = true then
    ((s.foldl (fun acc c => 10 * acc + (c.toNat - 48)) 0 : Nat) : ℚ)
  else 0

/-- The base name the operating system reports for a path (`os` package
`basename`): trailing separators removed (the first byte is always kept), then
the part after the last separator that is left before the final byte. -/
def basename (name : GoString) : GoString :=
  let trimmed := (name.reverse.dropWhile (· = '/')).reverse
  let kept := if trimmed = [] then name.take 1 else trimmed
  match kept.reverse with
  | [] => []
  | last :: rev => (rev.takeWhile (· ≠ '/')).reverse ++ [last]

/-! ## Errors -/

/-- Go error values the package can return. -/
inductive GoError
  /-- `ErrorUnsupportedResolution`. -/
  | ErrorUnsupportedResolution
  /-- `ErrorInvalidFileName`. -/
  | ErrorInvalidFileName
  /-- `ErrorOutOfRange`. -/
  | ErrorOutOfRange
  /-- `errors.New("void")`. -/
  | void
  /-- The `os` error for a path that does not exist. -/
  | notExist
  /-- `io.EOF`: a positioned read that found fewer bytes than asked. -/
  | eof
  /-- `os.ErrClosed`. -/
  | closed
  /-- The `os` error for a negative read offset. -/
  | negativeOffset
  /-- Any other error of the operating system. -/
  | os (code : Nat)
  /-- An error value of the caller, returned by a caller-supplied validator. -/
  | user (code : Nat)
  deriving DecidableEq, Repr

open GoError

/-- Results `Except` can be compared when errors and values can. -/
instance instDecidableEqExcept {ε α : Type} [DecidableEq ε] [DecidableEq α] :
    DecidableEq (Except ε α)
  | .ok a, .ok b =>
    if h : a = b then isTrue (by rw [h]) else isFalse (fun e => h (Except.ok.inj e))
  | .error a, .error b =>
    if h : a = b then isTrue (by rw [h]) else isFalse (fun e => h (Except.error.inj e))
  | .ok _, .error _ => isFalse (fun e => Except.noConfusion e)
  | .error _, .ok _ => isFalse (fun e => Except.noConfusion e)

/-- Go `os.IsNotExist`. -/
def IsNotExist (err : Option GoError) : Bool := err = some notExist

/-! ## Tile addressing -/

/-- Source `pad`. -/
def pad (str : GoString) (length : Int) (pad : GoString) : GoString :=
  if length ≤ 0 ∨ (str.length : Int) ≥ length ∨ pad.length = 0 then str
  else Repeat pad (length - str.length).toNat ++ str

/-- Source `cpad`.  `int(math.Abs(math.Floor(coord)))` is the integer
`|floor coord|`; the conversion to `int` is exact below 2^63 in magnitude. -/
def cpad (coord : ℚ) (length : Int) : GoString :=
  pad (Itoa (|⌊coord⌋|)) length "0".toList

/-- Source `fileName`. -/
def fileName (lat lon : ℚ) : GoString :=
  let ns := if lat < 0 then "S".toList else "N".toList
  let ew := if lon < 0 then "W".toList else "E".toList
  ns ++ cpad lat 2 ++ ew ++ cpad lon 3 ++ ".hgt".toList

/-- Column index `x` of source `byteOffset`. -/
def colIndex (lon : ℚ) (samples : Int) : Int := ⌊(lon - ⌊lon⌋) * samples⌋

/-- Row index `y` of source `byteOffset`. -/
def rowIndex (lat : ℚ) (samples : Int) : Int := ⌊(lat - ⌊lat⌋) * samples⌋

/-- Source `byteOffset`. -/
def byteOffset (lat lon : ℚ) (samples : Int) : Int :=
  let x := colIndex lon samples
  let y := rowIndex lat samples
  (x + (samples - y - 1) * samples) * 2

/-! ## The file-name pattern -/

/-- The class `[\d]` of the pattern: an ASCII decimal digit. -/
def isDigitByte (c : Char) : Bool := decide ('0' ≤ c) && decide (c ≤ '9')

/-- The pattern `[NS][\d]{2}[EW][\d]{3}` matched at the start of `s`. -/
def matchAtStart : GoString → Bool
  | c0 :: c1 :: c2 :: c3 :: c4 :: c5 :: c6 :: _ =>
    (c0 = 'N' || c0 = 'S') && isDigitByte c1 && isDigitByte c2 &&
    (c3 = 'E' || c3 = 'W') && isDigitByte c4 && isDigitByte c5 && isDigitByte c6
  | _ => false

/-- Source `fileRegexp.MatchString`: the pattern is not anchored, so it
matches when it matches at some position of `s`. -/
def fileRegexp.MatchString : GoString → Bool
  | [] => false
  | c :: cs => matchAtStart (c :: cs) || fileRegexp.MatchString cs

/-! ## Files, descriptors and the world -/

/-- A range validator: `func(lat, lon float64) error`. -/
abbrev Validator := ℚ → ℚ → Option GoError

/-- Source `FileOptions`; a nil `RangeValidator` is `none`. -/
structure FileOptions where
  RangeValidator : Option Validator
  IgnoreTileValidation : Bool

/-- What is stored on disk under a path: a length and the bytes below it. -/
structure DiskFile where
  length : Nat
  byteAt : Nat → Fin 256

/-- An `*os.File`: a descriptor number and the contents it reads from. -/
structure OSFile where
  fd : Nat
  length : Nat
  byteAt : Nat → Fin 256

/-- The part of `os.FileInfo` the package reads. -/
structure FileInfo where
  Name : GoString
  Size : Int

/-- Source `File`. -/
structure File where
  file : OSFile
  info : FileInfo
  resolution : Int
  size : Int
  options : FileOptions

/-- The state outside the package: what `os.Open` and `os.Stat` find for a
path, the descriptors that are open, and the stores (`sync.Map`) that the
default caches created so far keep, each as a key/value list. -/
structure World where
  disk : GoString → Except GoError DiskFile
  stat : GoString → Option GoError
  nextFd : Nat
  openFds : List Nat
  maps : List (List (GoString × File))

/-- Source constants. -/
def Resolution1ArcSecond : Int := 1

/-- Source constants. -/
def Resolution3ArcSecond : Int := 3

/-- Source `DefaultRangeValidator`. -/
def DefaultRangeValidator : Validator := fun lat _ =>
  if lat < -56 ∨ lat ≥ 60 then some ErrorOutOfRange else none

/-- Source `Open`.  `os.Open` takes a fresh descriptor for a path the disk
has; `Stat` on the descriptor just opened is taken to succeed.  As in the
source, the descriptor stays open when the length is refused. -/
def Open (name : GoString) (options : Option FileOptions) (w : World) :
    Except GoError File × World :=
  match w.disk name with
  | .error err => (.error err, w)
  | .ok d =>
    let f : OSFile := { fd := w.nextFd, length := d.length, byteAt := d.byteAt }
    let w1 : World := { w with nextFd := w.nextFd + 1, openFds := w.nextFd :: w.openFds }
    let i : FileInfo := { Name := basename name, Size := d.length }
    let opts : FileOptions := match options with
      | some o => o
      | none => { RangeValidator := some DefaultRangeValidator, IgnoreTileValidation := false }
    if i.Size = 1442401 * 2 then
      (.ok { file := f, info := i, resolution := Resolution3ArcSecond, size := 1201,
             options := opts }, w1)
    else if i.Size = 12967201 * 2 then
      (.ok { file := f, info := i, resolution := Resolution1ArcSecond, size := 3601,
             options := opts }, w1)
    else (.error ErrorUnsupportedResolution, w1)

/-- Source `File.Close`: closing an open descriptor releases it, closing it
again is an error. -/
def File.Close (f : File) (w : World) : Option GoError × World :=
  if f.file.fd ∈ w.openFds then
    (none, { w with openFds := w.openFds.filter (· ≠ f.file.fd) })
  else (some closed, w)

/-- Go `(*os.File).ReadAt` for a two-byte buffer: both bytes or an error. -/
def ReadAt (f : OSFile) (off : Int) (w : World) : Except GoError (Fin 256 × Fin 256) :=
  if off < 0 then .error negativeOffset
  else if f.fd ∉ w.openFds then .error closed
  else if off + 2 ≤ f.length then .ok (f.byteAt off.toNat, f.byteAt (off.toNat + 1))
  else .error eof

/-- Go `binary.Read` of an `int16` in `binary.BigEndian` order: the unsigned
value `b0 * 256 + b1` converted to `int16`. -/
def decodeInt16 (b0 b1 : Fin 256) : Int :=
  let u : Int := (b0.val : Int) * 256 + b1.val
  if u ≥ 32768 then u - 65536 else u

/-- Lines 143-168 of source `File.ElevationAt`: the range validator and the
tile validation; `none` when the function goes on to read. -/
def File.validation (f : File) (lat lon : ℚ) : Option GoError :=
  if !f.options.IgnoreTileValidation then
    match (match f.options.RangeValidator with
           | some v => v lat lon
           | none => none) with
    | some err => some err
    | none =>
      let name := TrimSuffix f.info.Name (Ext f.info.Name)
      if name.length ≠ 7 then some ErrorInvalidFileName
      else if !fileRegexp.MatchString name then some ErrorInvalidFileName
      else
        let minLat := ParseFloat (slice name 1 3)
        let minLon := ParseFloat (slice name 4 7)
        if slice name 0 1 = "N".toList ∧ (minLat > lat ∨ minLat + 1 ≤ lat) then
          some ErrorOutOfRange
        else if slice name 0 1 = "S".toList ∧
            (minLat > lat * -1 ∨ minLat + 1 ≤ lat * -1) then
          some ErrorOutOfRange
        else if slice name 3 4 = "E".toList ∧ (minLon > lon ∨ minLon + 1 ≤ lon) then
          some ErrorOutOfRange
        else if slice name 3 4 = "W".toList ∧
            (minLon > lon * -1 ∨ minLon + 1 ≤ lon * -1) then
          some ErrorOutOfRange
        else none
  else none

/-- Lines 169-182 of source `File.ElevationAt`: the two-byte read at
`byteOffset`, the big-endian decode and the void check. -/
def File.readElevation (f : File) (lat lon : ℚ) (w : World) : Except GoError (Int × Int) :=
  match ReadAt f.file (byteOffset lat lon f.size) w with
  | .error err => .error err
  | .ok (b0, b1) =>
    let e := decodeInt16 b0 b1
    if e = -32768 then .error void else .ok (e, f.resolution)

/-- Source `File.ElevationAt`: the validation (`File.validation`), then the
read (`File.readElevation`). -/
def File.ElevationAt (f : File) (lat lon : ℚ) (w : World) : Except GoError (Int × Int) :=
  match f.validation lat lon with
  | some err => .error err
  | none => f.readElevation lat lon w

/-! ## The cache and the directory -/

/-- Source `Cache`: three callbacks, acting on the world. -/
structure Cache where
  OnGet : GoString → World → Option File
  OnAdd : GoString → File → World → World
  OnClear : World → Option GoError × World

/-- Source `DataDirOptions`; a nil field is `none`. -/
structure DataDirOptions where
  Cache : Option Cache
  RangeValidator : Option Validator

/-- Source `DataDir`. -/
structure DataDir where
  dir : GoString
  options : DataDirOptions

/-- The store number `id` of the world (empty when not yet created). -/
def World.store (w : World) (id : Nat) : List (GoString × File) := w.maps.getD id []

/-- Replace the store number `id`. -/
def World.setStore (w : World) (id : Nat) (m : List (GoString × File)) : World :=
  { w with maps := w.maps.set id m }

/-- One step of the `Range` loop of `OnClear`: when the key is still in the
store, close its file (the error of `Close` is dropped) and delete the key. -/
def clearStep (id : Nat) (w : World) (entry : GoString × File) : World :=
  match (w.store id).lookup entry.1 with
  | some v =>
    let w1 := (v.Close w).2
    w1.setStore id ((w1.store id).filter (fun kv => kv.1 ≠ entry.1))
  | none => w

/-- Source `DefaultCache`: a cache over a fresh store. -/
def DefaultCache (w : World) : Cache × World :=
  let id := w.maps.length
  ({ OnGet := fun key w => (w.store id).lookup key
     OnAdd := fun key value w =>
       w.setStore id ((key, value) :: (w.store id).filter (fun kv => kv.1 ≠ key))
     OnClear := fun w => (none, (w.store id).foldl (clearStep id) w) },
   { w with maps := w.maps ++ [[]] })

/-- Go `os.PathSeparator`. -/
def PathSeparator : Char := '/'

/-- Source `OpenDataDir`. -/
def OpenDataDir (dir : GoString) (options : Option DataDirOptions) (w : World) :
    Except GoError DataDir × World :=
  if IsNotExist (w.stat dir) then (.error notExist, w)
  else
    match options with
    | some o => (.ok { dir := dir, options := o }, w)
    | none =>
      let (cache, w1) := DefaultCache w
      (.ok { dir := dir,
             options := { Cache := some cache,
                          RangeValidator := some DefaultRangeValidator } }, w1)

/-- Source `DataDir.Close`. -/
def DataDir.Close (h : DataDir) (w : World) : Option GoError × World :=
  match h.options.Cache with
  | some cache => cache.OnClear w
  | none => (none, w)

/-- Source `DataDir.ElevationAt`. -/
def DataDir.ElevationAt (h : DataDir) (lat lon : ℚ) (w : World) :
    Except GoError (Int × Int) × World :=
  match (match h.options.RangeValidator with
         | some v => v lat lon
         | none => none) with
  | some err => (.error err, w)
  | none =>
    let name := fileName lat lon
    let opts : FileOptions := { RangeValidator := none, IgnoreTileValidation := true }
    match h.options.Cache with
    | some cache =>
      match cache.OnGet name w with
      | some f => (f.ElevationAt lat lon w, w)
      | none =>
        match Open (h.dir ++ [PathSeparator] ++ name) (some opts) w with
        | (.error err, w1) => (.error err, w1)
        | (.ok f, w1) =>
          let w2 := cache.OnAdd name f w1
          (f.ElevationAt lat lon w2, w2)
    | none =>
      match Open (h.dir ++ [PathSeparator] ++ name) (some opts) w with
      | (.error err, w1) => (.error err, w1)
      | (.ok f, w1) => (f.ElevationAt lat lon w1, (f.Close w1).2)

/-! ## Auxiliary definitions for the statements -/

/-- Decimal digit number `k` as a byte. -/
def digit (k : Nat) : Char := Nat.digitChar k

/-- Hemisphere letter `fileName` writes for a latitude. -/
def nsLetter (lat : ℚ) : Char := if lat < 0 then 'S' else 'N'

/-- Hemisphere letter `fileName` writes for a longitude. -/
def ewLetter (lon : ℚ) : Char := if lon < 0 then 'W' else 'E'

/-- The anchored naming pattern `^[NS][0-9]{2}[EW][0-9]{3}\.hgt$` of tile
files. -/
def matchesNamingPattern : GoString → Bool
  | c0 :: c1 :: c2 :: c3 :: c4 :: c5 :: c6 :: rest =>
    (c0 = 'N' || c0 = 'S') && isDigitByte c1 && isDigitByte c2 &&
    (c3 = 'E' || c3 = 'W') && isDigitByte c4 && isDigitByte c5 && isDigitByte c6 &&
    decide (rest = ".hgt".toList)
  | _ => false

/-- The exact form `File.ElevationAt` requires of a stripped base name: seven
bytes, a letter `N` or `S`, two decimal digits, a letter `E` or `W`, three
decimal digits. -/
def isTileStem : GoString → Bool
  | [c0, c1, c2, c3, c4, c5, c6] =>
    (c0 = 'N' || c0 = 'S') && isDigitByte c1 && isDigitByte c2 &&
    (c3 = 'E' || c3 = 'W') && isDigitByte c4 && isDigitByte c5 && isDigitByte c6
  | _ => false

/-- A 1-arc-second tile file of the given name, opened with validation on and
no range validator, on descriptor 0: all samples are 0 except the one at byte
offset 7355122, which holds 205. -/
def sampleTile (name : String) : File :=
  { file := { fd := 0, length := 25934402,
              byteAt := fun i => if i = 7355123 then 205 else 0 },
    info := { Name := name.toList, Size := 25934402 },
    resolution := Resolution1ArcSecond,
    size := 3601,
    options := { RangeValidator := none, IgnoreTileValidation := false } }

/-- Contents of a 1-arc-second tile: 205 at byte offset 7355122, 0 elsewhere. -/
def sampleData : DiskFile :=
  { length := 25934402, byteAt := fun i => if i = 7355123 then 205 else 0 }

/-- A world whose disk holds the 1-arc-second tile `data/N48E021.hgt`, a
3-arc-second tile `data/N00E000.hgt` of zeros and a ten-byte file
`data/S01W001.hgt`; descriptor 0 is open. -/
def sampleWorld : World :=
  { disk := fun path =>
      if path = "data/N48E021.hgt".toList then .ok sampleData
      else if path = "data/N00E000.hgt".toList then
        .ok { length := 2884802, byteAt := fun _ => 0 }
      else if path = "data/S01W001.hgt".toList then
        .ok { length := 10, byteAt := fun _ => 0 }
      else .error notExist,
    stat := fun path => if path = "data".toList then none else some notExist,
    nextFd := 1,
    openFds := [0],
    maps := [] }

/-- The validator of the package test `TestSingleFileRangeValidator`: the
latitude band [48.5, 48.7). -/
def sampleBandValidator : Validator := fun lat _ =>
  if lat < 48.5 ∨ lat ≥ 48.7 then some ErrorOutOfRange else none

/-- The sample tile of the given name with other options. -/
def sampleTileWith (name : String) (options : FileOptions) : File :=
  { sampleTile name with options := options }

/-- The three values a Go call `ElevationAt` returns for an outcome: every
error return of the source is `0, 0, err`. -/
def goTriple : Except GoError (Int × Int) → Int × Int × Option GoError
  | .ok (e, r) => (e, r, none)
  | .error err => (0, 0, some err)

/-- The world after one call of `Close` on each file of a list, in order. -/
def closeAll (fs : List File) (w : World) : World :=
  fs.foldl (fun w f => (f.Close w).2) w

/-- The errors the calls of `Close` on each file of a list return, in order. -/
def closeResults : List File → World → List (Option GoError)
  | [], _ => []
  | f :: fs, w => (f.Close w).1 :: closeResults fs (f.Close w).2

/-- The options `DataDir.ElevationAt` opens tile files with. -/
def dirFileOptions : FileOptions := { RangeValidator := none, IgnoreTileValidation := true }

/-- The path `DataDir.ElevationAt` opens for a coordinate. -/
def DataDir.tilePath (h : DataDir) (lat lon : ℚ) : GoString :=
  h.dir ++ [PathSeparator] ++ fileName lat lon

/-- The sample world after a default cache was created in it and the sample
tile `N48E021.hgt` (descriptor 0) was added under its key. -/
def sampleCachedWorld : World :=
  (DefaultCache sampleWorld).1.OnAdd "N48E021.hgt".toList (sampleTile "N48E021.hgt")
    (DefaultCache sampleWorld).2

/-- The file `DataDir.ElevationAt` opens for `data/N48E021.hgt` in the sample
world with a fresh default cache: descriptor 1. -/
def sampleOpenedFile : File :=
  { file := { fd := 1, length := sampleData.length, byteAt := sampleData.byteAt },
    info := { Name := "N48E021.hgt".toList, Size := 25934402 },
    resolution := Resolution1ArcSecond,
    size := 3601,
    options := dirFileOptions }

/-- The world that open leaves: descriptors 1 and 0 open, one empty store. -/
def sampleOpenedWorld : World :=
  { (DefaultCache sampleWorld).2 with nextFd := 2, openFds := [1, 0] }

/-- The answer the bytes of a disk file give for a coordinate, read with grid
side `size` through an open descriptor: the read, decode and void check of
`File.readElevation` on the contents `d`. -/
def diskElevation (d : DiskFile) (size resolution : Int) (lat lon : ℚ) :
    Except GoError (Int × Int) :=
  let off := byteOffset lat lon size
  if off < 0 then .error negativeOffset
  else if off + 2 ≤ d.length then
    let e := decodeInt16 (d.byteAt off.toNat) (d.byteAt (off.toNat + 1))
    if e = -32768 then .error void else .ok (e, resolution)
  else .error eof

/-- The answer a directory owes for a coordinate, as a function of the disk
alone: the range validator, then the tile file at `dir + separator + fileName
lat lon`, its resolution by its length, and the sample at the byte offset. -/
def dirAnswer (dir : GoString) (v : Option Validator)
    (disk : GoString → Except GoError DiskFile) (lat lon : ℚ) : Except GoError (Int × Int) :=
  match (match v with
         | some u => u lat lon
         | none => none) with
  | some err => .error err
  | none =>
    match disk (dir ++ [PathSeparator] ++ fileName lat lon) with
    | .error err => .error err
    | .ok d =>
      if d.length = 2884802 then diskElevation d 1201 Resolution3ArcSecond lat lon
      else if d.length = 25934402 then diskElevation d 3601 Resolution1ArcSecond lat lon
      else .error ErrorUnsupportedResolution

/-- A file as `DataDir.ElevationAt` opens it over the disk file `d`: the
contents of `d`, validation ignored, resolution and grid side by the length. -/
def File.servesDisk (f : File) (d : DiskFile) : Prop :=
  f.file.length = d.length ∧ f.file.byteAt = d.byteAt ∧
  f.options.IgnoreTileValidation = true ∧
  ((d.length = 2884802 ∧ f.resolution = Resolution3ArcSecond ∧ f.size = 1201) ∨
   (d.length = 25934402 ∧ f.resolution = Resolution1ArcSecond ∧ f.size = 3601))

/-- The store `id` holds, under each key, an open file over the disk file at
`dir + separator + key`: the state every sequence of `DataDir.ElevationAt`
calls on the directory keeps. -/
def cacheConsistent (dir : GoString) (id : Nat) (w : World) : Prop :=
  id < w.maps.length ∧
  ∀ key f, (w.store id).lookup key = some f →
    f.file.fd ∈ w.openFds ∧
    ∃ d, w.disk (dir ++ [PathSeparator] ++ key) = .ok d ∧ f.servesDisk d

/-- The answers of a sequence of `DataDir.ElevationAt` calls, each in the world
the one before left. -/
def DataDir.answers (h : DataDir) : List (ℚ × ℚ) → World → List (Except GoError (Int × Int))
  | [], _ => []
  | q :: qs, w =>
    (h.ElevationAt q.1 q.2 w).1 :: DataDir.answers h qs (h.ElevationAt q.1 q.2 w).2

/-! ## Concurrent queries as interleaved steps

A query of `DataDir.ElevationAt` that has passed the range validator does, on
a directory with a cache, a cache get; on a miss an open; and, the open
succeeded, a cache add.  (The read that follows changes nothing.)  Several
queries running at once interleave these steps. -/

/-- Where a query stands. -/
inductive QueryPc
  /-- Before the cache get. -/
  | start
  /-- The cache get missed; before the open. -/
  | missed
  /-- The open returned `f`; before the cache add. -/
  | opened (f : File)
  /-- Finished: the cache get hit. -/
  | doneHit
  /-- Finished: the query opened a file and added it. -/
  | doneMiss
  /-- Finished: the open failed. -/
  | failed (err : GoError)

/-- The query has returned. -/
def QueryPc.finished : QueryPc → Bool
  | .doneHit => true
  | .doneMiss => true
  | .failed _ => true
  | _ => false

/-- The query finished after opening and adding a file. -/
def QueryPc.isDoneMiss : QueryPc → Bool
  | .doneMiss => true
  | _ => false

/-- The query finished on a cache hit. -/
def QueryPc.isDoneHit : QueryPc → Bool
  | .doneHit => true
  | _ => false

/-- The query has opened a file. -/
def QueryPc.hasOpened : QueryPc → Bool
  | .opened _ => true
  | .doneMiss => true
  | _ => false

/-- One step of a query on the key `key` with tile path `path` (lines 259,
262 and 268 of the source). -/
def queryStep (cache : Cache) (path key : GoString) (pc : QueryPc) (w : World) :
    QueryPc × World :=
  match pc with
  | .start =>
    match cache.OnGet key w with
    | some _ => (.doneHit, w)
    | none => (.missed, w)
  | .missed =>
    match Open path (some dirFileOptions) w with
    | (.ok f, w1) => (.opened f, w1)
    | (.error err, w1) => (.failed err, w1)
  | .opened f => (.doneMiss, cache.OnAdd key f w)
  | .doneHit => (.doneHit, w)
  | .doneMiss => (.doneMiss, w)
  | .failed err => (.failed err, w)

/-- The query number `i` takes its next step. -/
def scheduleStep (cache : Cache) (path key : GoString) (cfg : List QueryPc × World)
    (i : Nat) : List QueryPc × World :=
  match cfg.1[i]? with
  | some pc =>
    (cfg.1.set i (queryStep cache path key pc cfg.2).1, (queryStep cache path key pc cfg.2).2)
  | none => cfg

/-- The three steps of one query taken without interruption. -/
def queryRun (cache : Cache) (path key : GoString) (w : World) : QueryPc × World :=
  let s1 := queryStep cache path key QueryPc.start w
  let s2 := queryStep cache path key s1.1 s1.2
  queryStep cache path key s2.1 s2.2

/-- The queries take steps in the order of the schedule. -/
def runSchedule (cache : Cache) (path key : GoString) (sched : List Nat)
    (cfg : List QueryPc × World) : List QueryPc × World :=
  sched.foldl (scheduleStep cache path key) cfg

/-- The descriptors taken since the world `w0` that are open in `w` and that
no file of the store `id` holds: opened, not closed, not cached. -/
def leakedHandles (id : Nat) (w0 w : World) : List Nat :=
  w.openFds.filter (fun fd =>
    decide (w0.nextFd ≤ fd) && !((w.store id).any (fun kv => kv.2.file.fd == fd)))

/-- Descriptor numbers are handed out in order: every open descriptor and
every descriptor of a cached file is below the next one. -/
def World.fdsBelowNext (w : World) (id : Nat) : Prop :=
  (∀ fd ∈ w.openFds, fd < w.nextFd) ∧ (∀ kv ∈ w.store id, kv.2.file.fd < w.nextFd)

/-- What holds of the queries `ts` and the world `w` at every point of every
interleaving started in the world `w0` with no query yet begun, for the store
`id` and the key `key`: only descriptors were taken, one by each query that
has opened; none was closed; the store is the initial one until a query has
added, and from then on holds one file of a query under the key; a hit came
after an add; no open failed. -/
def raceInv (id : Nat) (key : GoString) (w0 : World) (ts : List QueryPc) (w : World) : Prop :=
  id < w.maps.length ∧
  w.disk = w0.disk ∧
  w.nextFd = w0.nextFd + ts.countP QueryPc.hasOpened ∧
  w.openFds = (List.range' w0.nextFd (ts.countP QueryPc.hasOpened)).reverse ++ w0.openFds ∧
  (∀ f, QueryPc.opened f ∈ ts → w0.nextFd ≤ f.file.fd ∧ f.file.fd < w.nextFd) ∧
  (ts.countP QueryPc.isDoneMiss = 0 → w.store id = w0.store id) ∧
  (0 < ts.countP QueryPc.isDoneMiss →
    ∃ f, w.store id = (key, f) :: (w0.store id).filter (fun kv => kv.1 ≠ key) ∧
      w0.nextFd ≤ f.file.fd ∧ f.file.fd < w.nextFd) ∧
  (0 < ts.countP QueryPc.isDoneHit → 0 < ts.countP QueryPc.isDoneMiss) ∧
  (∀ err, QueryPc.failed err ∉ ts)

/-! ## Tile keys: padding and digits -/

set_option maxRecDepth 100000 in
theorem pad_two : ∀ n : Fin 100,
    pad (Itoa (n.val : Int)) 2 "0".toList = [digit (n / 10), digit (n % 10)] := by
  decide

set_option maxRecDepth 1000000 in
theorem pad_three : ∀ n : Fin 1000,
    pad (Itoa (n.val : Int)) 3 "0".toList =
      [digit (n / 100), digit (n / 10 % 10), digit (n % 10)] := by
  decide

theorem digit_isDigitByte : ∀ k : Fin 10, isDigitByte (digit k) = true := by decide

theorem digit_isDigit : ∀ k : Fin 10, (digit k).isDigit = true := by decide

theorem digit_toNat : ∀ k : Fin 10, (digit k).toNat - 48 = k := by decide

theorem digit_isDigitByte_lt {k : Nat} (h : k < 10) : isDigitByte (digit k) = true :=
  digit_isDigitByte ⟨k, h⟩

theorem digit_isDigit_lt {k : Nat} (h : k < 10) : (digit k).isDigit = true :=
  digit_isDigit ⟨k, h⟩

theorem digit_toNat_lt {k : Nat} (h : k < 10) : (digit k).toNat - 48 = k :=
  digit_toNat ⟨k, h⟩

theorem ParseFloat_two {x y : Nat} (hx : x < 10) (hy : y < 10) :
    ParseFloat [digit x, digit y] = ((10 * x + y : Nat) : ℚ) := by
  simp [ParseFloat, digit_isDigit_lt hx, digit_isDigit_lt hy, digit_toNat_lt hx,
    digit_toNat_lt hy]

theorem ParseFloat_three {x y z : Nat} (hx : x < 10) (hy : y < 10) (hz : z < 10) :
    ParseFloat [digit x, digit y, digit z] = ((100 * x + 10 * y + z : Nat) : ℚ) := by
  simp [ParseFloat, digit_isDigit_lt hx, digit_isDigit_lt hy, digit_isDigit_lt hz,
    digit_toNat_lt hx, digit_toNat_lt hy, digit_toNat_lt hz]
  ring

theorem natAbs_floor_le {q : ℚ} {b : ℕ} (h1 : -(b : ℚ) ≤ q) (h2 : q < b) :
    ⌊q⌋.natAbs ≤ b := by
  have ha : -(b : ℤ) ≤ ⌊q⌋ := by
    rw [Int.le_floor]; push_cast; exact h1
  have hb : ⌊q⌋ < (b : ℤ) := by
    rw [Int.floor_lt]; exact_mod_cast h2
  omega

theorem lat_natAbs_le {lat : ℚ} (h1 : -90 ≤ lat) (h2 : lat < 90) : ⌊lat⌋.natAbs ≤ 90 :=
  natAbs_floor_le (b := 90) (by exact_mod_cast h1) (by exact_mod_cast h2)

theorem lon_natAbs_le {lon : ℚ} (h3 : -180 ≤ lon) (h4 : lon < 180) : ⌊lon⌋.natAbs ≤ 180 :=
  natAbs_floor_le (b := 180) (by exact_mod_cast h3) (by exact_mod_cast h4)

theorem abs_floor_cast (q : ℚ) : |(⌊q⌋ : ℚ)| = ((⌊q⌋.natAbs : ℕ) : ℚ) := by
  rw [Nat.cast_natAbs, Int.cast_abs]

theorem cpad_two {q : ℚ} (h : ⌊q⌋.natAbs < 100) :
    cpad q 2 = [digit (⌊q⌋.natAbs / 10), digit (⌊q⌋.natAbs % 10)] := by
  have := pad_two ⟨⌊q⌋.natAbs, h⟩
  simp only [cpad, Int.abs_eq_natAbs]
  exact this

theorem cpad_three {q : ℚ} (h : ⌊q⌋.natAbs < 1000) :
    cpad q 3 = [digit (⌊q⌋.natAbs / 100), digit (⌊q⌋.natAbs / 10 % 10),
      digit (⌊q⌋.natAbs % 10)] := by
  have := pad_three ⟨⌊q⌋.natAbs, h⟩
  simp only [cpad, Int.abs_eq_natAbs]
  exact this

/-- Shape of a tile key inside the coordinate domain. -/
theorem fileName_shape {lat lon : ℚ} (h1 : -90 ≤ lat) (h2 : lat < 90)
    (h3 : -180 ≤ lon) (h4 : lon < 180) :
    fileName lat lon =
      [nsLetter lat, digit (⌊lat⌋.natAbs / 10), digit (⌊lat⌋.natAbs % 10),
       ewLetter lon, digit (⌊lon⌋.natAbs / 100), digit (⌊lon⌋.natAbs / 10 % 10),
       digit (⌊lon⌋.natAbs % 10), '.', 'h', 'g', 't'] := by
  have ha := lat_natAbs_le h1 h2
  have hb := lon_natAbs_le h3 h4
  have e1 := cpad_two (q := lat) (by omega)
  have e2 := cpad_three (q := lon) (by omega)
  unfold fileName nsLetter ewLetter
  rw [e1, e2]
  by_cases hl : lat < 0 <;> by_cases hm : lon < 0 <;> simp [hl, hm]

/-- Stripping the extension of a tile key leaves its seven leading bytes. -/
theorem trim_shape (a b c d e f g : Char) :
    TrimSuffix [a, b, c, d, e, f, g, '.', 'h', 'g', 't']
      (Ext [a, b, c, d, e, f, g, '.', 'h', 'g', 't']) = [a, b, c, d, e, f, g] := by
  have hE : Ext [a, b, c, d, e, f, g, '.', 'h', 'g', 't'] = ['.', 'h', 'g', 't'] := by
    simp [Ext, extScan]
  rw [hE]
  simp [TrimSuffix, List.isSuffixOf]

/-- The name `File.ElevationAt` derives from a tile key of the domain. -/
theorem fileName_stem {lat lon : ℚ} (h1 : -90 ≤ lat) (h2 : lat < 90)
    (h3 : -180 ≤ lon) (h4 : lon < 180) :
    TrimSuffix (fileName lat lon) (Ext (fileName lat lon)) =
      [nsLetter lat, digit (⌊lat⌋.natAbs / 10), digit (⌊lat⌋.natAbs % 10),
       ewLetter lon, digit (⌊lon⌋.natAbs / 100), digit (⌊lon⌋.natAbs / 10 % 10),
       digit (⌊lon⌋.natAbs % 10)] := by
  rw [fileName_shape h1 h2 h3 h4, trim_shape]

theorem stem_parse_lat {lat : ℚ} (a d e f g : Char) (h : ⌊lat⌋.natAbs ≤ 90) :
    ParseFloat (slice [a, digit (⌊lat⌋.natAbs / 10), digit (⌊lat⌋.natAbs % 10), d, e, f, g] 1 3)
      = |(⌊lat⌋ : ℚ)| := by
  have : slice [a, digit (⌊lat⌋.natAbs / 10), digit (⌊lat⌋.natAbs % 10), d, e, f, g] 1 3
      = [digit (⌊lat⌋.natAbs / 10), digit (⌊lat⌋.natAbs % 10)] := by
    simp [slice]
  rw [this, ParseFloat_two (by omega) (by omega), abs_floor_cast]
  congr 1
  omega

theorem stem_parse_lon {lon : ℚ} (a b c d : Char) (h : ⌊lon⌋.natAbs ≤ 180) :
    ParseFloat (slice [a, b, c, d, digit (⌊lon⌋.natAbs / 100),
      digit (⌊lon⌋.natAbs / 10 % 10), digit (⌊lon⌋.natAbs % 10)] 4 7)
      = |(⌊lon⌋ : ℚ)| := by
  have : slice [a, b, c, d, digit (⌊lon⌋.natAbs / 100),
      digit (⌊lon⌋.natAbs / 10 % 10), digit (⌊lon⌋.natAbs % 10)] 4 7
      = [digit (⌊lon⌋.natAbs / 100), digit (⌊lon⌋.natAbs / 10 % 10),
        digit (⌊lon⌋.natAbs % 10)] := by
    simp [slice]
  rw [this, ParseFloat_three (by omega) (by omega) (by omega), abs_floor_cast]
  congr 1
  omega

/-! ## C1: the corner read back from a tile key -/

/-- C1: for every latitude in [-90, 90) and longitude in [-180, 180), the name
`File.ElevationAt` derives from `fileName lat lon` (extension stripped) has the
letter `S` exactly when `lat < 0` and `N` otherwise, the letter `W` exactly
when `lon < 0` and `E` otherwise, its two latitude digits parse to
`|floor lat|` and its three longitude digits parse to `|floor lon|`.  A
latitude of -56.7 gives `S57`, 48.7 gives `N48`, latitude 0 gives `N00` and
longitude 0 gives `E000`. -/
theorem C1_fileName_rederives_corner :
    (∀ lat lon : ℚ, -90 ≤ lat → lat < 90 → -180 ≤ lon → lon < 180 →
      slice (TrimSuffix (fileName lat lon) (Ext (fileName lat lon))) 0 1
        = (if lat < 0 then "S".toList else "N".toList) ∧
      slice (TrimSuffix (fileName lat lon) (Ext (fileName lat lon))) 3 4
        = (if lon < 0 then "W".toList else "E".toList) ∧
      ParseFloat (slice (TrimSuffix (fileName lat lon) (Ext (fileName lat lon))) 1 3)
        = |(⌊lat⌋ : ℚ)| ∧
      ParseFloat (slice (TrimSuffix (fileName lat lon) (Ext (fileName lat lon))) 4 7)
        = |(⌊lon⌋ : ℚ)|) ∧
    (∀ lon : ℚ, slice (fileName (-56.7) lon) 0 3 = "S57".toList) ∧
    (∀ lon : ℚ, slice (fileName 48.7 lon) 0 3 = "N48".toList) ∧
    (∀ lon : ℚ, slice (fileName 0 lon) 0 3 = "N00".toList) ∧
    (∀ lat : ℚ, -90 ≤ lat → lat < 90 → slice (fileName lat 0) 3 7 = "E000".toList) := by
  refine ⟨?_, ?_, ?_, ?_, ?_⟩
  · intro lat lon h1 h2 h3 h4
    rw [fileName_stem h1 h2 h3 h4]
    refine ⟨?_, ?_, stem_parse_lat _ _ _ _ _ (lat_natAbs_le h1 h2),
      stem_parse_lon _ _ _ _ (lon_natAbs_le h3 h4)⟩
    · by_cases hl : lat < 0 <;> simp [slice, nsLetter, hl]
    · by_cases hl : lon < 0 <;> simp [slice, ewLetter, hl]
  · intro lon
    have h : cpad (-56.7) 2 = "57".toList := by decide!
    have h0 : ((-56.7 : ℚ) < 0) := by norm_num
    simp [fileName, h, h0, slice]
  · intro lon
    have h : cpad 48.7 2 = "48".toList := by decide!
    have h0 : ¬ ((48.7 : ℚ) < 0) := by norm_num
    simp [fileName, h, h0, slice]
  · intro lon
    have h : cpad 0 2 = "00".toList := by decide!
    simp [fileName, h, slice]
  · intro lat h1 h2
    rw [fileName_shape h1 h2 (by norm_num) (by norm_num)]
    simp [slice, ewLetter, digit]
    decide

/-- C1 at the coordinate (-56.7, 21.2613): the key is `S57E021.hgt`. -/
theorem C1_fileName_rederives_corner_witness :
    fileName (-56.7) 21.2613 = "S57E021.hgt".toList ∧
    slice (TrimSuffix (fileName (-56.7) 21.2613) (Ext (fileName (-56.7) 21.2613))) 0 1
      = (if (-56.7 : ℚ) < 0 then "S".toList else "N".toList) ∧
    slice (TrimSuffix (fileName (-56.7) 21.2613) (Ext (fileName (-56.7) 21.2613))) 3 4
      = (if (21.2613 : ℚ) < 0 then "W".toList else "E".toList) ∧
    ParseFloat (slice (TrimSuffix (fileName (-56.7) 21.2613)
      (Ext (fileName (-56.7) 21.2613))) 1 3) = |(⌊(-56.7 : ℚ)⌋ : ℚ)| ∧
    ParseFloat (slice (TrimSuffix (fileName (-56.7) 21.2613)
      (Ext (fileName (-56.7) 21.2613))) 4 7) = |(⌊(21.2613 : ℚ)⌋ : ℚ)| :=
  ⟨by decide!, C1_fileName_rederives_corner.1 (-56.7) 21.2613
    (by norm_num) (by norm_num) (by norm_num) (by norm_num)⟩

/-! ## C2: tile keys match the naming pattern -/

theorem nsLetter_cases (lat : ℚ) : nsLetter lat = 'N' ∨ nsLetter lat = 'S' := by
  unfold nsLetter; split <;> simp

theorem ewLetter_cases (lon : ℚ) : ewLetter lon = 'E' ∨ ewLetter lon = 'W' := by
  unfold ewLetter; split <;> simp

/-- A seven-byte name of the pattern is matched by `fileRegexp`. -/
theorem matchString_stem {a d : Char} {x y u v t : Nat} (ha : a = 'N' ∨ a = 'S')
    (hd : d = 'E' ∨ d = 'W') (hx : x < 10) (hy : y < 10) (hu : u < 10) (hv : v < 10)
    (ht : t < 10) :
    fileRegexp.MatchString [a, digit x, digit y, d, digit u, digit v, digit t] = true := by
  have h : matchAtStart [a, digit x, digit y, d, digit u, digit v, digit t] = true := by
    simp only [matchAtStart, digit_isDigitByte_lt hx, digit_isDigitByte_lt hy,
      digit_isDigitByte_lt hu, digit_isDigitByte_lt hv, digit_isDigitByte_lt ht]
    rcases ha with rfl | rfl <;> rcases hd with rfl | rfl <;> decide
  simp [fileRegexp.MatchString, h]

/-- C2: for every latitude in [-90, 90) and longitude in [-180, 180),
`fileName lat lon` matches the anchored pattern `^[NS][0-9]{2}[EW][0-9]{3}\.hgt$`
(one hemisphere letter, two decimal digits, one hemisphere letter, three
decimal digits, then `.hgt`), has 11 bytes, and its base name without the
extension has exactly 7 bytes and is accepted by `fileRegexp`. -/
theorem C2_fileName_matches_pattern (lat lon : ℚ) (h1 : -90 ≤ lat) (h2 : lat < 90)
    (h3 : -180 ≤ lon) (h4 : lon < 180) :
    matchesNamingPattern (fileName lat lon) = true ∧
    (fileName lat lon).length = 11 ∧
    (TrimSuffix (fileName lat lon) (Ext (fileName lat lon))).length = 7 ∧
    fileRegexp.MatchString (TrimSuffix (fileName lat lon) (Ext (fileName lat lon))) = true := by
  have ha := lat_natAbs_le h1 h2
  have hb := lon_natAbs_le h3 h4
  have hx : ⌊lat⌋.natAbs / 10 < 10 := by omega
  have hy : ⌊lat⌋.natAbs % 10 < 10 := by omega
  have hu : ⌊lon⌋.natAbs / 100 < 10 := by omega
  have hv : ⌊lon⌋.natAbs / 10 % 10 < 10 := by omega
  have ht : ⌊lon⌋.natAbs % 10 < 10 := by omega
  refine ⟨?_, ?_, ?_, ?_⟩
  · rw [fileName_shape h1 h2 h3 h4]
    simp only [matchesNamingPattern, digit_isDigitByte_lt hx, digit_isDigitByte_lt hy,
      digit_isDigitByte_lt hu, digit_isDigitByte_lt hv, digit_isDigitByte_lt ht]
    rcases nsLetter_cases lat with h | h <;> rcases ewLetter_cases lon with k | k <;>
      rw [h, k] <;> decide
  · rw [fileName_shape h1 h2 h3 h4]; rfl
  · rw [fileName_stem h1 h2 h3 h4]; rfl
  · rw [fileName_stem h1 h2 h3 h4]
    exact matchString_stem (nsLetter_cases lat) (ewLetter_cases lon) hx hy hu hv ht

/-- C2 at the coordinate (48.7162, 21.2613), whose key is `N48E021.hgt`. -/
theorem C2_fileName_matches_pattern_witness :
    fileName 48.7162 21.2613 = "N48E021.hgt".toList ∧
    matchesNamingPattern (fileName 48.7162 21.2613) = true ∧
    (fileName 48.7162 21.2613).length = 11 ∧
    (TrimSuffix (fileName 48.7162 21.2613) (Ext (fileName 48.7162 21.2613))).length = 7 ∧
    fileRegexp.MatchString
      (TrimSuffix (fileName 48.7162 21.2613) (Ext (fileName 48.7162 21.2613))) = true :=
  ⟨by decide!, C2_fileName_matches_pattern 48.7162 21.2613
    (by norm_num) (by norm_num) (by norm_num) (by norm_num)⟩

/-! ## C3: a tile key identifies the tile -/

theorem digit_inj {x y : Nat} (hx : x < 10) (hy : y < 10) (h : digit x = digit y) : x = y := by
  have e1 := digit_toNat_lt hx
  have e2 := digit_toNat_lt hy
  rw [h] at e1
  omega

theorem floor_neg_iff (q : ℚ) : ⌊q⌋ < 0 ↔ q < 0 := by
  rw [Int.floor_lt]; simp

theorem nsLetter_eq_iff (p q : ℚ) : nsLetter p = nsLetter q ↔ (p < 0 ↔ q < 0) := by
  unfold nsLetter
  by_cases hp : p < 0 <;> by_cases hq : q < 0 <;> simp [hp, hq]

theorem ewLetter_eq_iff (p q : ℚ) : ewLetter p = ewLetter q ↔ (p < 0 ↔ q < 0) := by
  unfold ewLetter
  by_cases hp : p < 0 <;> by_cases hq : q < 0 <;> simp [hp, hq]

/-- Equal sign and equal magnitude of the floors make the floors equal. -/
theorem floor_eq_of_sign_natAbs {p q : ℚ} (hs : p < 0 ↔ q < 0)
    (hm : ⌊p⌋.natAbs = ⌊q⌋.natAbs) : ⌊p⌋ = ⌊q⌋ := by
  have hs2 : ⌊p⌋ < 0 ↔ ⌊q⌋ < 0 := by rw [floor_neg_iff, floor_neg_iff]; exact hs
  omega

/-- The tile key is a function of the two floors. -/
theorem fileName_congr {lat1 lon1 lat2 lon2 : ℚ} (h1 : ⌊lat1⌋ = ⌊lat2⌋)
    (h2 : ⌊lon1⌋ = ⌊lon2⌋) : fileName lat1 lon1 = fileName lat2 lon2 := by
  have e1 : (lat1 < 0) = (lat2 < 0) := by
    rw [← floor_neg_iff lat1, ← floor_neg_iff lat2, h1]
  have e2 : (lon1 < 0) = (lon2 < 0) := by
    rw [← floor_neg_iff lon1, ← floor_neg_iff lon2, h2]
  simp only [fileName, cpad, h1, h2, e1, e2]

/-- C3: for coordinates with latitudes in [-90, 90) and longitudes in
[-180, 180), two coordinates get the same tile key exactly when they have the
same floor of the latitude and the same floor of the longitude, that is the
same south-west corner. -/
theorem C3_fileName_identifies_tile (lat1 lon1 lat2 lon2 : ℚ)
    (a1 : -90 ≤ lat1) (a2 : lat1 < 90) (a3 : -180 ≤ lon1) (a4 : lon1 < 180)
    (b1 : -90 ≤ lat2) (b2 : lat2 < 90) (b3 : -180 ≤ lon2) (b4 : lon2 < 180) :
    fileName lat1 lon1 = fileName lat2 lon2 ↔ (⌊lat1⌋ = ⌊lat2⌋ ∧ ⌊lon1⌋ = ⌊lon2⌋) := by
  constructor
  · intro h
    rw [fileName_shape a1 a2 a3 a4, fileName_shape b1 b2 b3 b4] at h
    have ha := lat_natAbs_le a1 a2
    have hb := lon_natAbs_le a3 a4
    have hc := lat_natAbs_le b1 b2
    have hd := lon_natAbs_le b3 b4
    simp only [List.cons.injEq, and_true] at h
    obtain ⟨n1, x1, x2, n2, y1, y2, y3⟩ := h
    have k1 := digit_inj (by omega) (by omega) x1
    have k2 := digit_inj (by omega) (by omega) x2
    have k3 := digit_inj (by omega) (by omega) y1
    have k4 := digit_inj (by omega) (by omega) y2
    have k5 := digit_inj (by omega) (by omega) y3
    exact ⟨floor_eq_of_sign_natAbs ((nsLetter_eq_iff _ _).1 n1) (by omega),
      floor_eq_of_sign_natAbs ((ewLetter_eq_iff _ _).1 n2) (by omega)⟩
  · rintro ⟨h1, h2⟩
    exact fileName_congr h1 h2

/-- C3 at two coordinates of the tile `S57E021` and one of its northern
neighbour: the first two share the key, the third does not. -/
theorem C3_fileName_identifies_tile_witness :
    (fileName (-56.7) 21.2613 = fileName (-56.2) 21.9 ↔
      (⌊(-56.7 : ℚ)⌋ = ⌊(-56.2 : ℚ)⌋ ∧ ⌊(21.2613 : ℚ)⌋ = ⌊(21.9 : ℚ)⌋)) ∧
    fileName (-56.7) 21.2613 = fileName (-56.2) 21.9 ∧
    fileName (-56.7) 21.2613 ≠ fileName (-55.9) 21.2613 :=
  ⟨C3_fileName_identifies_tile (-56.7) 21.2613 (-56.2) 21.9
    (by norm_num) (by norm_num) (by norm_num) (by norm_num)
    (by norm_num) (by norm_num) (by norm_num) (by norm_num), by decide!, by decide!⟩

/-! ## C4: the byte offset and the row-major, north-first layout -/

/-- An error of the validation is the result of `File.ElevationAt`. -/
theorem ElevationAt_of_validation_some {f : File} {lat lon : ℚ} {err : GoError}
    (h : f.validation lat lon = some err) (w : World) :
    f.ElevationAt lat lon w = .error err := by
  simp [File.ElevationAt, h]

/-- When the validation passes, the result is that of the read. -/
theorem ElevationAt_of_validation_none {f : File} {lat lon : ℚ}
    (h : f.validation lat lon = none) (w : World) :
    f.ElevationAt lat lon w = f.readElevation lat lon w := by
  simp [File.ElevationAt, h]

/-- A positioned read fails only with one of the three errors of the `os`
layer. -/
theorem ReadAt_error {f : OSFile} {off : Int} {w : World} {err : GoError}
    (h : ReadAt f off w = .error err) :
    err = negativeOffset ∨ err = closed ∨ err = eof := by
  unfold ReadAt at h
  split_ifs at h <;> simp_all

/-- The read half fails only with an `os` error or with the void error. -/
theorem readElevation_error {f : File} {lat lon : ℚ} {w : World} {err : GoError}
    (h : f.readElevation lat lon w = .error err) :
    err = negativeOffset ∨ err = closed ∨ err = eof ∨ err = void := by
  unfold File.readElevation at h
  split at h
  · rename_i e he
    simp only [Except.error.injEq] at h
    subst h
    rcases ReadAt_error he with h | h | h <;> simp [h]
  · simp only at h
    split_ifs at h
    simp only [Except.error.injEq] at h
    simp [h]

theorem readElevation_ne_outOfRange (f : File) (lat lon : ℚ) (w : World) :
    f.readElevation lat lon w ≠ .error ErrorOutOfRange := by
  intro h
  rcases readElevation_error h with h | h | h | h <;> cases h

theorem readElevation_ne_invalidFileName (f : File) (lat lon : ℚ) (w : World) :
    f.readElevation lat lon w ≠ .error ErrorInvalidFileName := by
  intro h
  rcases readElevation_error h with h | h | h | h <;> cases h

/-- A seven-byte name that `fileRegexp` matches is matched at its start. -/
theorem matchAtStart_of_seven (c0 c1 c2 c3 c4 c5 c6 : Char)
    (h : fileRegexp.MatchString [c0, c1, c2, c3, c4, c5, c6] = true) :
    matchAtStart [c0, c1, c2, c3, c4, c5, c6] = true := by
  simpa [fileRegexp.MatchString, matchAtStart] using h

/-- The validation on a well-formed name, with validation enabled and a range
validator that is absent or accepts: the four bounds checks of the source. -/
theorem validation_wellFormed {f : File} {lat lon : ℚ} {c0 c1 c2 c3 c4 c5 c6 : Char}
    (hI : f.options.IgnoreTileValidation = false)
    (hv : ∀ v, f.options.RangeValidator = some v → v lat lon = none)
    (hn : TrimSuffix f.info.Name (Ext f.info.Name) = [c0, c1, c2, c3, c4, c5, c6])
    (hm : matchAtStart [c0, c1, c2, c3, c4, c5, c6] = true) :
    f.validation lat lon =
      if (ParseFloat [c1, c2] ≤ (if c0 = 'N' then lat else -lat) ∧
          (if c0 = 'N' then lat else -lat) < ParseFloat [c1, c2] + 1) ∧
         (ParseFloat [c4, c5, c6] ≤ (if c3 = 'E' then lon else -lon) ∧
          (if c3 = 'E' then lon else -lon) < ParseFloat [c4, c5, c6] + 1)
      then none else some ErrorOutOfRange := by
  have hval : (match f.options.RangeValidator with
           | some v => v lat lon
           | none => none) = none := by
    cases hr : f.options.RangeValidator with
    | none => rfl
    | some v => exact hv v hr
  have hms : fileRegexp.MatchString [c0, c1, c2, c3, c4, c5, c6] = true := by
    simp [fileRegexp.MatchString, hm]
  have hc0 : c0 = 'N' ∨ c0 = 'S' := by
    simp only [matchAtStart, Bool.and_eq_true, Bool.or_eq_true, decide_eq_true_eq] at hm
    exact hm.1.1.1.1.1.1
  have hc3 : c3 = 'E' ∨ c3 = 'W' := by
    simp only [matchAtStart, Bool.and_eq_true, Bool.or_eq_true, decide_eq_true_eq] at hm
    exact hm.1.1.1.2
  have s1 : slice [c0, c1, c2, c3, c4, c5, c6] 1 3 = [c1, c2] := by simp [slice]
  have s2 : slice [c0, c1, c2, c3, c4, c5, c6] 4 7 = [c4, c5, c6] := by simp [slice]
  have s3 : slice [c0, c1, c2, c3, c4, c5, c6] 0 1 = [c0] := by simp [slice]
  have s4 : slice [c0, c1, c2, c3, c4, c5, c6] 3 4 = [c3] := by simp [slice]
  unfold File.validation
  rw [hI, hval, hn]
  simp only [s1, s2, s3, s4, hms]
  rcases hc0 with rfl | rfl <;> rcases hc3 with rfl | rfl <;>
    simp <;> simp only [← not_le] <;> split_ifs <;> first | rfl | tauto

/-! ## C5: the tile-bounds check -/

/-- With validation enabled, an accepting or absent range validator and a
well-formed name, `ErrorOutOfRange` is returned exactly outside the square the
name claims. -/
theorem elevationAt_outOfRange_iff {f : File} {lat lon : ℚ} (w : World)
    {c0 c1 c2 c3 c4 c5 c6 : Char}
    (hI : f.options.IgnoreTileValidation = false)
    (hv : ∀ v, f.options.RangeValidator = some v → v lat lon = none)
    (hn : TrimSuffix f.info.Name (Ext f.info.Name) = [c0, c1, c2, c3, c4, c5, c6])
    (hm : matchAtStart [c0, c1, c2, c3, c4, c5, c6] = true) :
    f.ElevationAt lat lon w = .error ErrorOutOfRange ↔
      ¬ ((ParseFloat [c1, c2] ≤ (if c0 = 'N' then lat else -lat) ∧
          (if c0 = 'N' then lat else -lat) < ParseFloat [c1, c2] + 1) ∧
         (ParseFloat [c4, c5, c6] ≤ (if c3 = 'E' then lon else -lon) ∧
          (if c3 = 'E' then lon else -lon) < ParseFloat [c4, c5, c6] + 1)) := by
  have hval := validation_wellFormed hI hv hn hm
  constructor
  · intro h hin
    rw [if_pos hin] at hval
    rw [ElevationAt_of_validation_none hval] at h
    exact readElevation_ne_outOfRange _ _ _ _ h
  · intro hout
    rw [if_neg hout] at hval
    exact ElevationAt_of_validation_some hval w

/-- The name derived from `N48E021.hgt`. -/
theorem stem_N48E021 :
    TrimSuffix "N48E021.hgt".toList (Ext "N48E021.hgt".toList)
      = ['N', '4', '8', 'E', '0', '2', '1'] := by
  decide

/-- The bounds check of a file named `N48E021.hgt`. -/
theorem N48E021_outOfRange_iff {f : File} (lat lon : ℚ) (w : World)
    (hN : f.info.Name = "N48E021.hgt".toList)
    (hI : f.options.IgnoreTileValidation = false)
    (hv : ∀ v, f.options.RangeValidator = some v → v lat lon = none) :
    f.ElevationAt lat lon w = .error ErrorOutOfRange ↔
      ¬ ((48 ≤ lat ∧ lat < 49) ∧ (21 ≤ lon ∧ lon < 22)) := by
  have hn : TrimSuffix f.info.Name (Ext f.info.Name) = ['N', '4', '8', 'E', '0', '2', '1'] := by
    rw [hN]; exact stem_N48E021
  have h := elevationAt_outOfRange_iff w hI hv hn (by decide)
  have p1 : ParseFloat ['4', '8'] = 48 := by decide!
  have p2 : ParseFloat ['0', '2', '1'] = 21 := by decide!
  rw [p1, p2] at h
  rw [h]
  norm_num

/-- The default validator accepts every latitude of the band [-56, 60). -/
theorem DefaultRangeValidator_accepts {lat : ℚ} (lon : ℚ) (h1 : -56 ≤ lat) (h2 : lat < 60) :
    DefaultRangeValidator lat lon = none := by
  simp [DefaultRangeValidator, not_lt.2 h1, h2]

/-- A validator that is absent or the default one accepts inside the band. -/
theorem accepts_of_none_or_default {r : Option Validator} {lat : ℚ} (lon : ℚ)
    (hr : r = none ∨ r = some DefaultRangeValidator) (h1 : -56 ≤ lat) (h2 : lat < 60) :
    ∀ v, r = some v → v lat lon = none := by
  intro v hv
  rcases hr with h | h
  · rw [h] at hv; cases hv
  · rw [h] at hv
    cases hv
    exact DefaultRangeValidator_accepts lon h1 h2

/-- C5: with tile validation enabled, a range validator that is absent or
accepts, and a well-formed name (hemisphere letter, two digits, hemisphere
letter, three digits) with parsed magnitudes `m` and `n`, `File.ElevationAt`
returns `ErrorOutOfRange` exactly when the coordinate is outside the half-open
square `m <= lat' < m + 1`, `n <= lon' < n + 1`, where `lat'` is `lat` for `N`
and `-lat` for `S`, and `lon'` is `lon` for `E` and `-lon` for `W`.  A file
named `N48E021.hgt`, with no validator or the default one, rejects
(47.7162, 21.2613), (47.7162, 22.2613), (48.7162, 22.2613), (49.7162, 21.2613),
(49.7162, 22.2613), (48.7162, -21.2613), (-48.7162, 21.2613) and (0, 0) with
`ErrorOutOfRange`, and does not reject (48.7162, 21.2613) with it. -/
theorem C5_outOfRange_iff_outside_square :
    (∀ (f : File) (lat lon : ℚ) (w : World) (c0 c1 c2 c3 c4 c5 c6 : Char),
      f.options.IgnoreTileValidation = false →
      (∀ v, f.options.RangeValidator = some v → v lat lon = none) →
      TrimSuffix f.info.Name (Ext f.info.Name) = [c0, c1, c2, c3, c4, c5, c6] →
      matchAtStart [c0, c1, c2, c3, c4, c5, c6] = true →
      (f.ElevationAt lat lon w = .error ErrorOutOfRange ↔
        ¬ ((ParseFloat [c1, c2] ≤ (if c0 = 'N' then lat else -lat) ∧
            (if c0 = 'N' then lat else -lat) < ParseFloat [c1, c2] + 1) ∧
           (ParseFloat [c4, c5, c6] ≤ (if c3 = 'E' then lon else -lon) ∧
            (if c3 = 'E' then lon else -lon) < ParseFloat [c4, c5, c6] + 1)))) ∧
    (∀ (f : File) (w : World),
      f.info.Name = "N48E021.hgt".toList →
      f.options.IgnoreTileValidation = false →
      (f.options.RangeValidator = none ∨
        f.options.RangeValidator = some DefaultRangeValidator) →
      f.ElevationAt 47.7162 21.2613 w = .error ErrorOutOfRange ∧
      f.ElevationAt 47.7162 22.2613 w = .error ErrorOutOfRange ∧
      f.ElevationAt 48.7162 22.2613 w = .error ErrorOutOfRange ∧
      f.ElevationAt 49.7162 21.2613 w = .error ErrorOutOfRange ∧
      f.ElevationAt 49.7162 22.2613 w = .error ErrorOutOfRange ∧
      f.ElevationAt 48.7162 (-21.2613) w = .error ErrorOutOfRange ∧
      f.ElevationAt (-48.7162) 21.2613 w = .error ErrorOutOfRange ∧
      f.ElevationAt 0 0 w = .error ErrorOutOfRange ∧
      f.ElevationAt 48.7162 21.2613 w ≠ .error ErrorOutOfRange) := by
  refine ⟨?_, ?_⟩
  · intro f lat lon w c0 c1 c2 c3 c4 c5 c6 hI hv hn hm
    exact elevationAt_outOfRange_iff w hI hv hn hm
  · intro f w hN hI hr
    refine ⟨?_, ?_, ?_, ?_, ?_, ?_, ?_, ?_, ?_⟩
    · exact (N48E021_outOfRange_iff _ _ w hN hI
        (accepts_of_none_or_default _ hr (by norm_num) (by norm_num))).2 (by norm_num)
    · exact (N48E021_outOfRange_iff _ _ w hN hI
        (accepts_of_none_or_default _ hr (by norm_num) (by norm_num))).2 (by norm_num)
    · exact (N48E021_outOfRange_iff _ _ w hN hI
        (accepts_of_none_or_default _ hr (by norm_num) (by norm_num))).2 (by norm_num)
    · exact (N48E021_outOfRange_iff _ _ w hN hI
        (accepts_of_none_or_default _ hr (by norm_num) (by norm_num))).2 (by norm_num)
    · exact (N48E021_outOfRange_iff _ _ w hN hI
        (accepts_of_none_or_default _ hr (by norm_num) (by norm_num))).2 (by norm_num)
    · exact (N48E021_outOfRange_iff _ _ w hN hI
        (accepts_of_none_or_default _ hr (by norm_num) (by norm_num))).2 (by norm_num)
    · exact (N48E021_outOfRange_iff _ _ w hN hI
        (accepts_of_none_or_default _ hr (by norm_num) (by norm_num))).2 (by norm_num)
    · exact (N48E021_outOfRange_iff _ _ w hN hI
        (accepts_of_none_or_default _ hr (by norm_num) (by norm_num))).2 (by norm_num)
    · intro h
      exact (N48E021_outOfRange_iff _ _ w hN hI
        (accepts_of_none_or_default _ hr (by norm_num) (by norm_num))).1 h (by norm_num)

/-- C5 on the sample tile `N48E021.hgt`: one tile to the north is rejected,
and the tile's own coordinate reads elevation 205. -/
theorem C5_outOfRange_iff_outside_square_witness :
    (sampleTile "N48E021.hgt").ElevationAt 49.7162 21.2613 sampleWorld
      = .error ErrorOutOfRange ∧
    (sampleTile "N48E021.hgt").ElevationAt 48.7162 21.2613 sampleWorld = .ok (205, 1) ∧
    ((sampleTile "N48E021.hgt").ElevationAt 49.7162 21.2613 sampleWorld
        = .error ErrorOutOfRange ↔
      ¬ ((ParseFloat ['4', '8'] ≤ (if 'N' = 'N' then (49.7162 : ℚ) else -49.7162) ∧
          (if 'N' = 'N' then (49.7162 : ℚ) else -49.7162) < ParseFloat ['4', '8'] + 1) ∧
         (ParseFloat ['0', '2', '1'] ≤ (if 'E' = 'E' then (21.2613 : ℚ) else -21.2613) ∧
          (if 'E' = 'E' then (21.2613 : ℚ) else -21.2613)
            < ParseFloat ['0', '2', '1'] + 1))) :=
  ⟨by decide!, by decide!,
    C5_outOfRange_iff_outside_square.1 (sampleTile "N48E021.hgt") 49.7162 21.2613
      sampleWorld 'N' '4' '8' 'E' '0' '2' '1' rfl (by intro v hv; cases hv)
      (by decide) (by decide)⟩

/-! ## C6: a file queried at the coordinate that addressed it -/

theorem parse_lat_digits {lat : ℚ} (h : ⌊lat⌋.natAbs ≤ 90) :
    ParseFloat [digit (⌊lat⌋.natAbs / 10), digit (⌊lat⌋.natAbs % 10)] = |(⌊lat⌋ : ℚ)| := by
  rw [ParseFloat_two (by omega) (by omega), abs_floor_cast]
  congr 1
  omega

theorem parse_lon_digits {lon : ℚ} (h : ⌊lon⌋.natAbs ≤ 180) :
    ParseFloat [digit (⌊lon⌋.natAbs / 100), digit (⌊lon⌋.natAbs / 10 % 10),
      digit (⌊lon⌋.natAbs % 10)] = |(⌊lon⌋ : ℚ)| := by
  rw [ParseFloat_three (by omega) (by omega) (by omega), abs_floor_cast]
  congr 1
  omega

/-- The bounds test of the source on one axis, at the coordinate `q` itself
with the magnitude `|floor q|` its own tile key carries: it holds exactly when
`q` is not negative or is an integer. -/
theorem own_axis_iff (q : ℚ) (pos neg : Char) (hne : neg ≠ pos) :
    (|(⌊q⌋ : ℚ)| ≤ (if (if q < 0 then neg else pos) = pos then q else -q) ∧
      (if (if q < 0 then neg else pos) = pos then q else -q) < |(⌊q⌋ : ℚ)| + 1) ↔
    ¬ (q < 0 ∧ (⌊q⌋ : ℚ) ≠ q) := by
  have h1 : (⌊q⌋ : ℚ) ≤ q := Int.floor_le q
  have h2 : q < (⌊q⌋ : ℚ) + 1 := Int.lt_floor_add_one q
  by_cases hq : q < 0
  · have hf : (⌊q⌋ : ℚ) ≤ 0 := le_trans h1 hq.le
    simp only [hq, if_true, if_neg hne, abs_of_nonpos hf, true_and, not_not]
    constructor
    · rintro ⟨a, _⟩
      linarith
    · intro e
      constructor <;> linarith
  · have hq0 : 0 ≤ q := not_lt.1 hq
    have hf : (0 : ℚ) ≤ (⌊q⌋ : ℚ) := by
      have : (0 : ℤ) ≤ ⌊q⌋ := Int.floor_nonneg.2 hq0
      exact_mod_cast this
    simp only [hq, if_false, if_true, abs_of_nonneg hf, false_and, not_false_eq_true, iff_true]
    exact ⟨h1, h2⟩

/-- A file named by `fileName lat lon`, queried at `(lat, lon)` with validation
enabled: the name is accepted, and the bounds check rejects the coordinate
exactly when a negative coordinate is not an integer. -/
theorem own_tile_validation {f : File} {lat lon : ℚ} (w : World)
    (h1 : -90 ≤ lat) (h2 : lat < 90) (h3 : -180 ≤ lon) (h4 : lon < 180)
    (hN : f.info.Name = fileName lat lon)
    (hI : f.options.IgnoreTileValidation = false)
    (hv : ∀ v, f.options.RangeValidator = some v → v lat lon = none) :
    f.ElevationAt lat lon w ≠ .error ErrorInvalidFileName ∧
    (f.ElevationAt lat lon w = .error ErrorOutOfRange ↔
      (lat < 0 ∧ (⌊lat⌋ : ℚ) ≠ lat) ∨ (lon < 0 ∧ (⌊lon⌋ : ℚ) ≠ lon)) := by
  have ha := lat_natAbs_le h1 h2
  have hb := lon_natAbs_le h3 h4
  have hn := fileName_stem h1 h2 h3 h4
  rw [← hN] at hn
  have hm : matchAtStart [nsLetter lat, digit (⌊lat⌋.natAbs / 10), digit (⌊lat⌋.natAbs % 10),
       ewLetter lon, digit (⌊lon⌋.natAbs / 100), digit (⌊lon⌋.natAbs / 10 % 10),
       digit (⌊lon⌋.natAbs % 10)] = true :=
    matchAtStart_of_seven _ _ _ _ _ _ _
      (matchString_stem (nsLetter_cases lat) (ewLetter_cases lon) (by omega) (by omega)
        (by omega) (by omega) (by omega))
  have hval := validation_wellFormed hI hv hn hm
  have hiff := elevationAt_outOfRange_iff w hI hv hn hm
  rw [parse_lat_digits ha, parse_lon_digits hb] at hval hiff
  have hlat := own_axis_iff lat 'N' 'S' (by decide)
  have hlon := own_axis_iff lon 'E' 'W' (by decide)
  unfold nsLetter at hval hiff
  unfold ewLetter at hval hiff
  refine ⟨?_, ?_⟩
  · intro h
    have hcases : f.validation lat lon = none ∨ f.validation lat lon = some ErrorOutOfRange := by
      rw [hval]; exact ite_eq_or_eq _ _ _
    rcases hcases with hc | hc
    · rw [ElevationAt_of_validation_none hc] at h
      exact readElevation_ne_invalidFileName _ _ _ _ h
    · rw [ElevationAt_of_validation_some hc] at h
      cases h
  · rw [hiff, hlat, hlon, ← not_or, not_not]

/-- C6: a file named `fileName lat lon` and queried at `(lat, lon)` with tile
validation enabled (range validator absent or accepting) never returns
`ErrorInvalidFileName`, but it returns `ErrorOutOfRange` exactly when a
negative coordinate is not an integer: the bounds check negates the coordinate
where `fileName` floors it.  So the file `S01E000.hgt`, which `fileName`
assigns to (-0.5, 0.5), rejects (-0.5, 0.5). -/
theorem C6_own_tile_validation :
    (∀ (f : File) (lat lon : ℚ) (w : World),
      -90 ≤ lat → lat < 90 → -180 ≤ lon → lon < 180 →
      f.info.Name = fileName lat lon →
      f.options.IgnoreTileValidation = false →
      (∀ v, f.options.RangeValidator = some v → v lat lon = none) →
      f.ElevationAt lat lon w ≠ .error ErrorInvalidFileName ∧
      (f.ElevationAt lat lon w = .error ErrorOutOfRange ↔
        (lat < 0 ∧ (⌊lat⌋ : ℚ) ≠ lat) ∨ (lon < 0 ∧ (⌊lon⌋ : ℚ) ≠ lon))) ∧
    fileName (-0.5) 0.5 = "S01E000.hgt".toList ∧
    (sampleTile "S01E000.hgt").ElevationAt (-0.5) 0.5 sampleWorld = .error ErrorOutOfRange := by
  refine ⟨?_, by decide!, by decide!⟩
  intro f lat lon w h1 h2 h3 h4 hN hI hv
  exact own_tile_validation w h1 h2 h3 h4 hN hI hv

/-- C6 at (-56.7, 21.2613): the file `S57E021.hgt` accepts its name and rejects
the coordinate, which is negative and not an integer. -/
theorem C6_own_tile_validation_witness :
    (sampleTile "S57E021.hgt").ElevationAt (-56.7) 21.2613 sampleWorld
      ≠ .error ErrorInvalidFileName ∧
    ((sampleTile "S57E021.hgt").ElevationAt (-56.7) 21.2613 sampleWorld
        = .error ErrorOutOfRange ↔
      ((-56.7 : ℚ) < 0 ∧ (⌊(-56.7 : ℚ)⌋ : ℚ) ≠ -56.7) ∨
        ((21.2613 : ℚ) < 0 ∧ (⌊(21.2613 : ℚ)⌋ : ℚ) ≠ 21.2613)) :=
  C6_own_tile_validation.1 (sampleTile "S57E021.hgt") (-56.7) 21.2613 sampleWorld
    (by norm_num) (by norm_num) (by norm_num) (by norm_num) (by decide!) rfl
    (by intro v hv; cases hv)

/-! ## C7: resolution and grid side from the byte length -/

/-- C7: `Open` decides resolution and grid side from the byte length alone.
For a path the disk has, with a file of `n` bytes: `n = 2884802` (1201 * 1201
* 2) gives resolution 3 with grid side 1201, `n = 25934402` (3601 * 3601 * 2)
gives resolution 1 with grid side 3601, and every other `n` gives
`ErrorUnsupportedResolution`.  Every file `Open` returns has
`size * size * 2` equal to its byte length and (resolution, size) equal to
(3, 1201) or (1, 3601). -/
theorem C7_open_resolution_by_length :
    (∀ (name : GoString) (options : Option FileOptions) (w : World) (d : DiskFile),
      w.disk name = .ok d →
      (d.length = 1201 * 1201 * 2 →
        ∃ f, (Open name options w).1 = .ok f ∧
          f.resolution = Resolution3ArcSecond ∧ f.size = 1201) ∧
      (d.length = 3601 * 3601 * 2 →
        ∃ f, (Open name options w).1 = .ok f ∧
          f.resolution = Resolution1ArcSecond ∧ f.size = 3601) ∧
      (d.length ≠ 2884802 → d.length ≠ 25934402 →
        (Open name options w).1 = .error ErrorUnsupportedResolution)) ∧
    (∀ (name : GoString) (options : Option FileOptions) (w : World) (f : File),
      (Open name options w).1 = .ok f →
      f.size * f.size * 2 = f.info.Size ∧ f.info.Size = f.file.length ∧
      ((f.resolution = 3 ∧ f.size = 1201 ∧ f.info.Size = 2884802) ∨
       (f.resolution = 1 ∧ f.size = 3601 ∧ f.info.Size = 25934402))) := by
  refine ⟨?_, ?_⟩
  · intro name options w d hd
    refine ⟨?_, ?_, ?_⟩
    · intro hl
      simp [Open, hd, hl]
    · intro hl
      simp [Open, hd, hl]
    · intro n1 n2
      have m1 : ¬ ((d.length : Int) = 2884802) := by omega
      have m2 : ¬ ((d.length : Int) = 25934402) := by omega
      simp [Open, hd, m1, m2]
  · intro name options w f hf
    unfold Open at hf
    cases hd : w.disk name with
    | error err => simp [hd] at hf
    | ok d =>
      simp only [hd] at hf
      split_ifs at hf with c1 c2
      · simp only [Except.ok.injEq] at hf
        simp only at c1
        subst hf
        exact ⟨by simp only; omega, rfl, Or.inl ⟨rfl, rfl, by simp only; omega⟩⟩
      · simp only [Except.ok.injEq] at hf
        simp only at c2
        subst hf
        exact ⟨by simp only; omega, rfl, Or.inr ⟨rfl, rfl, by simp only; omega⟩⟩

/-- C7 on the sample disk: the 25934402-byte tile opens as 1-arc-second with
grid side 3601, the ten-byte file is refused. -/
theorem C7_open_resolution_by_length_witness :
    sampleWorld.disk "data/N48E021.hgt".toList = .ok sampleData ∧
    (sampleData.length = 3601 * 3601 * 2 →
      ∃ f, (Open "data/N48E021.hgt".toList none sampleWorld).1 = .ok f ∧
        f.resolution = Resolution1ArcSecond ∧ f.size = 3601) ∧
    (Open "data/S01W001.hgt".toList none sampleWorld).1 = .error ErrorUnsupportedResolution :=
  ⟨rfl,
    (C7_open_resolution_by_length.1 "data/N48E021.hgt".toList none sampleWorld sampleData
      rfl).2.1,
    (C7_open_resolution_by_length.1 "data/S01W001.hgt".toList none sampleWorld
      { length := 10, byteAt := fun _ => 0 } rfl).2.2 (by decide) (by decide)⟩

/-! ## C8: read, decode and the void sentinel -/

/-- A successful positioned read returns the bytes at `off` and `off + 1`,
both inside the file. -/
theorem ReadAt_ok {f : OSFile} {off : Int} {w : World} {b0 b1 : Fin 256}
    (h : ReadAt f off w = .ok (b0, b1)) :
    0 ≤ off ∧ off + 2 ≤ f.length ∧ b0 = f.byteAt off.toNat ∧ b1 = f.byteAt (off.toNat + 1) := by
  unfold ReadAt at h
  split_ifs at h with c1 c2 c3
  simp only [Except.ok.injEq, Prod.mk.injEq] at h
  exact ⟨not_lt.1 c1, c3, h.1.symm, h.2.symm⟩

/-- The decoded value as two's complement of the two bytes. -/
theorem decodeInt16_eq (b0 b1 : Fin 256) :
    decodeInt16 b0 b1 =
      (b0.val : Int) * 256 + b1.val - (if b0.val ≥ 128 then 65536 else 0) := by
  have h0 := b0.isLt
  have h1 := b1.isLt
  unfold decodeInt16
  simp only
  split_ifs <;> omega

theorem decodeInt16_range (b0 b1 : Fin 256) :
    -32768 ≤ decodeInt16 b0 b1 ∧ decodeInt16 b0 b1 ≤ 32767 := by
  have h0 := b0.isLt
  have h1 := b1.isLt
  rw [decodeInt16_eq]
  split_ifs <;> omega

theorem decodeInt16_void_iff (b0 b1 : Fin 256) :
    decodeInt16 b0 b1 = -32768 ↔ (b0.val = 128 ∧ b1.val = 0) := by
  have h0 := b0.isLt
  have h1 := b1.isLt
  rw [decodeInt16_eq]
  split_ifs <;> omega

/-- The read half on the two bytes the positioned read returned. -/
theorem readElevation_of_ReadAt {f : File} {lat lon : ℚ} {w : World} {b0 b1 : Fin 256}
    (h : ReadAt f.file (byteOffset lat lon f.size) w = .ok (b0, b1)) :
    f.readElevation lat lon w =
      if decodeInt16 b0 b1 = -32768 then .error void
      else .ok (decodeInt16 b0 b1, f.resolution) := by
  simp [File.readElevation, h]

/-- A successful read half comes from a successful positioned read. -/
theorem readElevation_ok {f : File} {lat lon : ℚ} {w : World} {e r : Int}
    (h : f.readElevation lat lon w = .ok (e, r)) :
    ∃ b0 b1, ReadAt f.file (byteOffset lat lon f.size) w = .ok (b0, b1) ∧
      e = decodeInt16 b0 b1 ∧ r = f.resolution ∧ e ≠ -32768 := by
  unfold File.readElevation at h
  split at h
  · cases h
  · rename_i b0 b1 hr
    simp only at h
    split_ifs at h with hv
    simp only [Except.ok.injEq, Prod.mk.injEq] at h
    exact ⟨b0, b1, hr, h.1.symm, h.2.symm, by rw [← h.1]; exact hv⟩

/-- The void error comes from a successful positioned read of the sentinel. -/
theorem readElevation_void {f : File} {lat lon : ℚ} {w : World}
    (h : f.readElevation lat lon w = .error void) :
    ∃ b0 b1, ReadAt f.file (byteOffset lat lon f.size) w = .ok (b0, b1) ∧
      decodeInt16 b0 b1 = -32768 := by
  unfold File.readElevation at h
  split at h
  · rename_i err he
    simp only [Except.error.injEq] at h
    subst h
    rcases ReadAt_error he with k | k | k <;> cases k
  · rename_i b0 b1 hr
    simp only at h
    split_ifs at h with hv
    exact ⟨b0, b1, hr, hv⟩

/-- C8: once the validation has passed or is ignored (`File.validation` gives
no error), `File.ElevationAt` reads the two bytes `b0`, `b1` at
`byteOffset lat lon size` and `byteOffset lat lon size + 1` and decodes them
as the big-endian two's-complement 16-bit integer
`e = b0 * 256 + b1 - (65536 if b0 >= 128)`, which lies in [-32768, 32767].  It
fails with the void error exactly when `e = -32768`, that is for the bytes
0x80 0x00, and otherwise returns `(e, resolution)`; a read that cannot deliver
both bytes gives an error other than void.  A successful result is never
-32768. -/
theorem C8_read_decode_void :
    (∀ (f : File) (lat lon : ℚ) (w : World) (b0 b1 : Fin 256),
      f.validation lat lon = none →
      ReadAt f.file (byteOffset lat lon f.size) w = .ok (b0, b1) →
      b0 = f.file.byteAt (byteOffset lat lon f.size).toNat ∧
      b1 = f.file.byteAt ((byteOffset lat lon f.size).toNat + 1) ∧
      decodeInt16 b0 b1 =
        (b0.val : Int) * 256 + b1.val - (if b0.val ≥ 128 then 65536 else 0) ∧
      (-32768 ≤ decodeInt16 b0 b1 ∧ decodeInt16 b0 b1 ≤ 32767) ∧
      (decodeInt16 b0 b1 = -32768 ↔ (b0.val = 128 ∧ b1.val = 0)) ∧
      (f.ElevationAt lat lon w = .error void ↔ decodeInt16 b0 b1 = -32768) ∧
      (decodeInt16 b0 b1 ≠ -32768 →
        f.ElevationAt lat lon w = .ok (decodeInt16 b0 b1, f.resolution))) ∧
    (∀ (f : File) (lat lon : ℚ) (w : World) (err : GoError),
      f.validation lat lon = none →
      ReadAt f.file (byteOffset lat lon f.size) w = .error err →
      f.ElevationAt lat lon w = .error err ∧ err ≠ void) ∧
    (∀ (f : File) (lat lon : ℚ) (w : World) (e r : Int),
      f.ElevationAt lat lon w = .ok (e, r) → e ≠ -32768 ∧ r = f.resolution) := by
  refine ⟨?_, ?_, ?_⟩
  · intro f lat lon w b0 b1 hval hr
    have hE := ElevationAt_of_validation_none hval w
    have hR := readElevation_of_ReadAt hr
    obtain ⟨_, _, e0, e1⟩ := ReadAt_ok hr
    refine ⟨e0, e1, decodeInt16_eq b0 b1, decodeInt16_range b0 b1,
      decodeInt16_void_iff b0 b1, ?_, ?_⟩
    · rw [hE, hR]
      by_cases hv : decodeInt16 b0 b1 = -32768 <;> simp [hv]
    · intro hv
      rw [hE, hR, if_neg hv]
  · intro f lat lon w err hval hr
    have hE := ElevationAt_of_validation_none hval w
    refine ⟨?_, ?_⟩
    · rw [hE]; simp [File.readElevation, hr]
    · rcases ReadAt_error hr with k | k | k <;> rw [k] <;> decide
  · intro f lat lon w e r h
    cases hval : f.validation lat lon with
    | some err => rw [ElevationAt_of_validation_some hval] at h; cases h
    | none =>
      rw [ElevationAt_of_validation_none hval] at h
      obtain ⟨b0, b1, _, _, hr, hne⟩ := readElevation_ok h
      exact ⟨hne, hr⟩

/-- C8 on the sample tile `N48E021.hgt` at (48.7162, 21.2613): the bytes at
offsets 7355122 and 7355123 are 0 and 205, and the result is (205, 1). -/
theorem C8_read_decode_void_witness :
    byteOffset 48.7162 21.2613 (sampleTile "N48E021.hgt").size = 7355122 ∧
    (sampleTile "N48E021.hgt").ElevationAt 48.7162 21.2613 sampleWorld = .ok (205, 1) ∧
    ((0 : Fin 256) = (sampleTile "N48E021.hgt").file.byteAt
        (byteOffset 48.7162 21.2613 (sampleTile "N48E021.hgt").size).toNat ∧
      (205 : Fin 256) = (sampleTile "N48E021.hgt").file.byteAt
        ((byteOffset 48.7162 21.2613 (sampleTile "N48E021.hgt").size).toNat + 1) ∧
      decodeInt16 0 205 =
        ((0 : Fin 256).val : Int) * 256 + (205 : Fin 256).val
          - (if (0 : Fin 256).val ≥ 128 then 65536 else 0) ∧
      (-32768 ≤ decodeInt16 0 205 ∧ decodeInt16 0 205 ≤ 32767) ∧
      (decodeInt16 0 205 = -32768 ↔ ((0 : Fin 256).val = 128 ∧ (205 : Fin 256).val = 0)) ∧
      ((sampleTile "N48E021.hgt").ElevationAt 48.7162 21.2613 sampleWorld = .error void ↔
        decodeInt16 0 205 = -32768) ∧
      (decodeInt16 0 205 ≠ -32768 →
        (sampleTile "N48E021.hgt").ElevationAt 48.7162 21.2613 sampleWorld
          = .ok (decodeInt16 0 205, (sampleTile "N48E021.hgt").resolution))) :=
  ⟨by decide!, by decide!,
    C8_read_decode_void.1 (sampleTile "N48E021.hgt") 48.7162 21.2613 sampleWorld 0 205
      (by decide!) (by decide!)⟩

/-! ## C9: the file-name check -/

/-- The exact seven-byte form is what the length test and the unanchored
pattern accept together. -/
theorem isTileStem_iff (s : GoString) :
    isTileStem s = true ↔ (s.length = 7 ∧ fileRegexp.MatchString s = true) := by
  constructor
  · intro h
    unfold isTileStem at h
    split at h
    · refine ⟨rfl, ?_⟩
      simp only [fileRegexp.MatchString, Bool.or_eq_true]
      exact Or.inl h
    · cases h
  · rintro ⟨hl, hm⟩
    rcases s with _ | ⟨c0, _ | ⟨c1, _ | ⟨c2, _ | ⟨c3, _ | ⟨c4, _ | ⟨c5, _ | ⟨c6, _ | ⟨c7, t⟩⟩⟩⟩⟩⟩⟩⟩ <;>
      simp at hl
    exact matchAtStart_of_seven _ _ _ _ _ _ _ hm

/-- A name of another form is refused by the validation. -/
theorem validation_illFormed {f : File} {lat lon : ℚ}
    (hI : f.options.IgnoreTileValidation = false)
    (hv : ∀ v, f.options.RangeValidator = some v → v lat lon = none)
    (hs : isTileStem (TrimSuffix f.info.Name (Ext f.info.Name)) = false) :
    f.validation lat lon = some ErrorInvalidFileName := by
  have hval : (match f.options.RangeValidator with
           | some v => v lat lon
           | none => none) = none := by
    cases hr : f.options.RangeValidator with
    | none => rfl
    | some v => exact hv v hr
  have hnot : ¬ ((TrimSuffix f.info.Name (Ext f.info.Name)).length = 7 ∧
      fileRegexp.MatchString (TrimSuffix f.info.Name (Ext f.info.Name)) = true) := by
    rw [← isTileStem_iff, hs]; decide
  unfold File.validation
  rw [hI, hval]
  by_cases hl : (TrimSuffix f.info.Name (Ext f.info.Name)).length = 7
  · have hm : fileRegexp.MatchString (TrimSuffix f.info.Name (Ext f.info.Name)) = false := by
      cases hb : fileRegexp.MatchString (TrimSuffix f.info.Name (Ext f.info.Name)) with
      | false => rfl
      | true => exact absurd ⟨hl, hb⟩ hnot
    simp [hl, hm]
  · simp [hl]

/-- With validation enabled and the validator absent or accepting, the result
is `ErrorInvalidFileName` exactly for the names not of the seven-byte form. -/
theorem elevationAt_invalidFileName_iff {f : File} {lat lon : ℚ} (w : World)
    (hI : f.options.IgnoreTileValidation = false)
    (hv : ∀ v, f.options.RangeValidator = some v → v lat lon = none) :
    f.ElevationAt lat lon w = .error ErrorInvalidFileName ↔
      isTileStem (TrimSuffix f.info.Name (Ext f.info.Name)) = false := by
  constructor
  · intro h
    cases hs : isTileStem (TrimSuffix f.info.Name (Ext f.info.Name)) with
    | false => rfl
    | true =>
      exfalso
      obtain ⟨hl, hm⟩ := (isTileStem_iff _).1 hs
      rcases hn : TrimSuffix f.info.Name (Ext f.info.Name) with
        _ | ⟨c0, _ | ⟨c1, _ | ⟨c2, _ | ⟨c3, _ | ⟨c4, _ | ⟨c5, _ | ⟨c6, _ | ⟨c7, t⟩⟩⟩⟩⟩⟩⟩⟩ <;>
        rw [hn] at hl <;> simp at hl
      rw [hn] at hm
      have hval := validation_wellFormed hI hv hn (matchAtStart_of_seven _ _ _ _ _ _ _ hm)
      have hcases : f.validation lat lon = none ∨
          f.validation lat lon = some ErrorOutOfRange := by
        rw [hval]; exact ite_eq_or_eq _ _ _
      rcases hcases with hc | hc
      · rw [ElevationAt_of_validation_none hc] at h
        exact readElevation_ne_invalidFileName _ _ _ _ h
      · rw [ElevationAt_of_validation_some hc] at h
        cases h
  · intro hs
    exact ElevationAt_of_validation_some (validation_illFormed hI hv hs) w

/-- C9: with tile validation enabled and the range validator absent or
accepting, `File.ElevationAt` returns `ErrorInvalidFileName` exactly when the
base name with its extension stripped is not seven bytes of the form letter
`N` or `S`, two digits, letter `E` or `W`, three digits.  `fileRegexp` does not
match `48E021`, `B48E021` or `N48C021`; it does match inside the longer name
`xN48E021`, but a name of any length other than seven, that one included, is
refused. -/
theorem C9_invalidFileName_iff_not_tile_stem :
    (∀ (f : File) (lat lon : ℚ) (w : World),
      f.options.IgnoreTileValidation = false →
      (∀ v, f.options.RangeValidator = some v → v lat lon = none) →
      (f.ElevationAt lat lon w = .error ErrorInvalidFileName ↔
        isTileStem (TrimSuffix f.info.Name (Ext f.info.Name)) = false)) ∧
    (∀ (f : File) (lat lon : ℚ) (w : World),
      f.options.IgnoreTileValidation = false →
      (∀ v, f.options.RangeValidator = some v → v lat lon = none) →
      (TrimSuffix f.info.Name (Ext f.info.Name)).length ≠ 7 →
      f.ElevationAt lat lon w = .error ErrorInvalidFileName) ∧
    fileRegexp.MatchString "48E021".toList = false ∧
    fileRegexp.MatchString "B48E021".toList = false ∧
    fileRegexp.MatchString "N48C021".toList = false ∧
    fileRegexp.MatchString "xN48E021".toList = true ∧
    (sampleTile "xN48E021.hgt").ElevationAt 48.7162 21.2613 sampleWorld
      = .error ErrorInvalidFileName := by
  refine ⟨?_, ?_, by decide, by decide, by decide, by decide, by decide!⟩
  · intro f lat lon w hI hv
    exact elevationAt_invalidFileName_iff w hI hv
  · intro f lat lon w hI hv hl
    refine (elevationAt_invalidFileName_iff w hI hv).2 ?_
    cases hs : isTileStem (TrimSuffix f.info.Name (Ext f.info.Name)) with
    | false => rfl
    | true => exact absurd ((isTileStem_iff _).1 hs).1 hl

/-- C9 on sample tiles: `N48C021.hgt` is refused for its name, `N48E021.hgt`
is not. -/
theorem C9_invalidFileName_iff_not_tile_stem_witness :
    ((sampleTile "N48C021.hgt").ElevationAt 48.7162 21.2613 sampleWorld
        = .error ErrorInvalidFileName ↔
      isTileStem (TrimSuffix (sampleTile "N48C021.hgt").info.Name
        (Ext (sampleTile "N48C021.hgt").info.Name)) = false) ∧
    (sampleTile "N48C021.hgt").ElevationAt 48.7162 21.2613 sampleWorld
      = .error ErrorInvalidFileName ∧
    (sampleTile "N48E021.hgt").ElevationAt 48.7162 21.2613 sampleWorld
      ≠ .error ErrorInvalidFileName :=
  ⟨C9_invalidFileName_iff_not_tile_stem.1 (sampleTile "N48C021.hgt") 48.7162 21.2613
    sampleWorld rfl (by intro v hv; cases hv), by decide!, by decide!⟩

/-! ## C10: the default range validator -/

theorem DefaultRangeValidator_none_iff (lat lon : ℚ) :
    DefaultRangeValidator lat lon = none ↔ (-56 ≤ lat ∧ lat < 60) := by
  unfold DefaultRangeValidator
  constructor
  · intro h
    split_ifs at h with hc
    exact ⟨not_lt.1 (fun k => hc (Or.inl k)), not_le.1 (fun k => hc (Or.inr k))⟩
  · rintro ⟨h1, h2⟩
    rw [if_neg]
    rintro (k | k)
    · exact absurd h1 (not_le.2 k)
    · exact absurd h2 (not_lt.2 k)

theorem DefaultRangeValidator_rejects {lat : ℚ} (lon : ℚ) (h : ¬ (-56 ≤ lat ∧ lat < 60)) :
    DefaultRangeValidator lat lon = some ErrorOutOfRange := by
  have hn : DefaultRangeValidator lat lon ≠ none := fun e =>
    h ((DefaultRangeValidator_none_iff lat lon).1 e)
  unfold DefaultRangeValidator at hn ⊢
  split_ifs at hn ⊢
  · rfl
  · exact absurd rfl hn

/-- A file opened with nil options has validation on and the default
validator. -/
theorem Open_nil_options {name : GoString} {w : World} {f : File}
    (h : (Open name none w).1 = .ok f) :
    f.options.IgnoreTileValidation = false ∧
      f.options.RangeValidator = some DefaultRangeValidator := by
  unfold Open at h
  cases hd : w.disk name with
  | error err => simp [hd] at h
  | ok d =>
    simp only [hd] at h
    split_ifs at h <;> simp only [Except.ok.injEq] at h <;> subst h <;> exact ⟨rfl, rfl⟩

/-- A rejecting range validator of a file with validation on decides the
result. -/
theorem ElevationAt_validator_rejects {f : File} {v : Validator} {lat lon : ℚ} {err : GoError}
    (w : World) (hI : f.options.IgnoreTileValidation = false)
    (hr : f.options.RangeValidator = some v) (hv : v lat lon = some err) :
    f.ElevationAt lat lon w = .error err := by
  apply ElevationAt_of_validation_some
  unfold File.validation
  simp [hI, hr, hv]

/-- A directory opened with nil options has the default validator. -/
theorem OpenDataDir_nil_options {dir : GoString} {w : World} {h : DataDir}
    (hh : (OpenDataDir dir none w).1 = .ok h) :
    h.options.RangeValidator = some DefaultRangeValidator := by
  unfold OpenDataDir at hh
  split_ifs at hh
  simp only [Except.ok.injEq] at hh
  subst hh
  rfl

/-- A rejecting range validator of a directory decides the result and leaves
the world as it was. -/
theorem DataDir_validator_rejects {h : DataDir} {v : Validator} {lat lon : ℚ} {err : GoError}
    (w : World) (hr : h.options.RangeValidator = some v) (hv : v lat lon = some err) :
    h.ElevationAt lat lon w = (.error err, w) := by
  unfold DataDir.ElevationAt
  simp [hr, hv]

/-- C10: the default range validator accepts a coordinate exactly when
`-56 <= lat < 60`, whatever the longitude, and otherwise returns
`ErrorOutOfRange`; latitude -56 is accepted and latitude 60 is rejected.  A
single file opened with nil options and a directory opened with nil options
return `ErrorOutOfRange` for every latitude outside the band, in particular for
(60.7162, 0) and (-56.7162, 0). -/
theorem C10_default_validator_band :
    (∀ lat lon : ℚ, DefaultRangeValidator lat lon = none ↔ (-56 ≤ lat ∧ lat < 60)) ∧
    (∀ lat lon : ℚ, ¬ (-56 ≤ lat ∧ lat < 60) →
      DefaultRangeValidator lat lon = some ErrorOutOfRange) ∧
    (∀ lon : ℚ, DefaultRangeValidator (-56) lon = none) ∧
    (∀ lon : ℚ, DefaultRangeValidator 60 lon = some ErrorOutOfRange) ∧
    (∀ (name : GoString) (w w2 : World) (f : File), (Open name none w).1 = .ok f →
      (∀ lat lon : ℚ, ¬ (-56 ≤ lat ∧ lat < 60) →
        f.ElevationAt lat lon w2 = .error ErrorOutOfRange) ∧
      f.ElevationAt 60.7162 0 w2 = .error ErrorOutOfRange ∧
      f.ElevationAt (-56.7162) 0 w2 = .error ErrorOutOfRange) ∧
    (∀ (dir : GoString) (w w2 : World) (h : DataDir), (OpenDataDir dir none w).1 = .ok h →
      (∀ lat lon : ℚ, ¬ (-56 ≤ lat ∧ lat < 60) →
        h.ElevationAt lat lon w2 = (.error ErrorOutOfRange, w2)) ∧
      h.ElevationAt 60.7162 0 w2 = (.error ErrorOutOfRange, w2) ∧
      h.ElevationAt (-56.7162) 0 w2 = (.error ErrorOutOfRange, w2)) := by
  refine ⟨DefaultRangeValidator_none_iff, fun lat lon h => DefaultRangeValidator_rejects lon h,
    ?_, ?_, ?_, ?_⟩
  · intro lon
    exact (DefaultRangeValidator_none_iff _ lon).2 (by norm_num)
  · intro lon
    exact DefaultRangeValidator_rejects lon (by norm_num)
  · intro name w w2 f hf
    obtain ⟨hI, hr⟩ := Open_nil_options hf
    have key : ∀ lat lon : ℚ, ¬ (-56 ≤ lat ∧ lat < 60) →
        f.ElevationAt lat lon w2 = .error ErrorOutOfRange := fun lat lon hb =>
      ElevationAt_validator_rejects w2 hI hr (DefaultRangeValidator_rejects lon hb)
    exact ⟨key, key _ _ (by norm_num), key _ _ (by norm_num)⟩
  · intro dir w w2 h hh
    have hr := OpenDataDir_nil_options hh
    have key : ∀ lat lon : ℚ, ¬ (-56 ≤ lat ∧ lat < 60) →
        h.ElevationAt lat lon w2 = (.error ErrorOutOfRange, w2) := fun lat lon hb =>
      DataDir_validator_rejects w2 hr (DefaultRangeValidator_rejects lon hb)
    exact ⟨key, key _ _ (by norm_num), key _ _ (by norm_num)⟩

/-- C10 on the sample world: the directory `data` and the file
`data/N48E021.hgt`, both opened with nil options, reject (60.7162, 0). -/
theorem C10_default_validator_band_witness :
    (∃ h, (OpenDataDir "data".toList none sampleWorld).1 = .ok h ∧
      h.ElevationAt 60.7162 0 sampleWorld = (.error ErrorOutOfRange, sampleWorld)) ∧
    (∃ f, (Open "data/N48E021.hgt".toList none sampleWorld).1 = .ok f ∧
      f.ElevationAt (-56.7162) 0 sampleWorld = .error ErrorOutOfRange) :=
  ⟨⟨_, rfl, ((C10_default_validator_band.2.2.2.2.2 "data".toList sampleWorld sampleWorld
      _ rfl).2.1)⟩,
    ⟨_, rfl, ((C10_default_validator_band.2.2.2.2.1 "data/N48E021.hgt".toList sampleWorld
      sampleWorld _ rfl).2.2)⟩⟩

/-! ## C11: a caller-supplied range validator comes first -/

/-- With validation enabled, the validation is the validator's verdict when it
rejects, and what it would be without a validator when it accepts. -/
theorem validation_validator_accepts {f : File} {v : Validator} {lat lon : ℚ}
    (hr : f.options.RangeValidator = some v) (hv : v lat lon = none) :
    f.validation lat lon =
      File.validation { f with options := { f.options with RangeValidator := none } }
        lat lon := by
  unfold File.validation
  simp [hr, hv]

/-- C11: with tile validation enabled and a caller-supplied range validator,
`File.ElevationAt` returns the validator's error for every coordinate the
validator rejects, whatever the file name, the file contents and the state of
the descriptor; for a coordinate the validator accepts the result is the one
the same file gives without a validator.  With the validator "latitude in
[48.5, 48.7)" a file named `N48E021.hgt` returns `ErrorOutOfRange` for
(48.4, 21.2613) and (48.7, 21.2613), and no validation step rejects
(48.5, 21.2613). -/
theorem C11_validator_first :
    (∀ (f : File) (v : Validator) (lat lon : ℚ) (err : GoError) (w : World),
      f.options.IgnoreTileValidation = false →
      f.options.RangeValidator = some v →
      v lat lon = some err →
      f.ElevationAt lat lon w = .error err) ∧
    (∀ (f : File) (v : Validator) (lat lon : ℚ) (w : World),
      f.options.RangeValidator = some v →
      v lat lon = none →
      f.ElevationAt lat lon w =
        File.ElevationAt { f with options := { f.options with RangeValidator := none } }
          lat lon w) ∧
    (∀ (f : File) (w : World),
      f.info.Name = "N48E021.hgt".toList →
      f.options.IgnoreTileValidation = false →
      f.options.RangeValidator = some sampleBandValidator →
      f.ElevationAt 48.4 21.2613 w = .error ErrorOutOfRange ∧
      f.ElevationAt 48.7 21.2613 w = .error ErrorOutOfRange ∧
      f.validation 48.5 21.2613 = none ∧
      f.ElevationAt 48.5 21.2613 w = f.readElevation 48.5 21.2613 w) := by
  refine ⟨?_, ?_, ?_⟩
  · intro f v lat lon err w hI hr hv
    exact ElevationAt_validator_rejects w hI hr hv
  · intro f v lat lon w hr hv
    unfold File.ElevationAt
    rw [validation_validator_accepts hr hv]
    rfl
  · intro f w hN hI hr
    have h1 : sampleBandValidator 48.4 21.2613 = some ErrorOutOfRange := by decide!
    have h2 : sampleBandValidator 48.7 21.2613 = some ErrorOutOfRange := by decide!
    have h3 : sampleBandValidator 48.5 21.2613 = none := by decide!
    have hn : TrimSuffix f.info.Name (Ext f.info.Name)
        = ['N', '4', '8', 'E', '0', '2', '1'] := by
      rw [hN]; exact stem_N48E021
    have hval : f.validation 48.5 21.2613 = none := by
      have hacc : ∀ v, f.options.RangeValidator = some v → v 48.5 21.2613 = none := by
        intro v hv
        rw [hr] at hv
        cases hv
        exact h3
      have hw := validation_wellFormed hI hacc hn (by decide)
      rw [hw]
      have p1 : ParseFloat ['4', '8'] = 48 := by decide!
      have p2 : ParseFloat ['0', '2', '1'] = 21 := by decide!
      rw [p1, p2]
      norm_num
    exact ⟨ElevationAt_validator_rejects w hI hr h1, ElevationAt_validator_rejects w hI hr h2,
      hval, ElevationAt_of_validation_none hval w⟩

/-- C11 on the sample tile `N48E021.hgt` with the band validator: (48.4,
21.2613) gets the validator's error, (48.5, 21.2613) reads elevation 0. -/
theorem C11_validator_first_witness :
    (sampleTileWith "N48E021.hgt"
        { RangeValidator := some sampleBandValidator, IgnoreTileValidation := false }).ElevationAt
      48.4 21.2613 sampleWorld = .error ErrorOutOfRange ∧
    (sampleTileWith "N48E021.hgt"
        { RangeValidator := some sampleBandValidator, IgnoreTileValidation := false }).ElevationAt
      48.5 21.2613 sampleWorld = .ok (0, 1) :=
  ⟨C11_validator_first.1 _ sampleBandValidator 48.4 21.2613 ErrorOutOfRange sampleWorld
    rfl rfl (by decide!), by decide!⟩

/-! ## C12: validation switched off -/

/-- With `IgnoreTileValidation` set the validation step is empty. -/
theorem validation_ignored {f : File} (lat lon : ℚ)
    (hI : f.options.IgnoreTileValidation = true) : f.validation lat lon = none := by
  simp [File.validation, hI]

/-- The read half does not look at the name or the options of the file. -/
theorem readElevation_congr {f g : File} {lat lon : ℚ} {w : World}
    (hf : g.file = f.file) (hs : g.size = f.size) (hr : g.resolution = f.resolution) :
    g.readElevation lat lon w = f.readElevation lat lon w := by
  simp [File.readElevation, hf, hs, hr]

/-- C12: when `IgnoreTileValidation` is true, `File.ElevationAt` runs no range
validator, no file-name check and no bounds check: for every coordinate, every
file name and every validator the result is that of the read alone, it is
never `ErrorInvalidFileName` or `ErrorOutOfRange`, it does not change when the
name or the validator is replaced, and when the read delivers the two bytes
at `byteOffset lat lon size` it is the void error for the sentinel and
`(decoded value, resolution)` otherwise. -/
theorem C12_ignore_skips_validation :
    (∀ (f : File) (lat lon : ℚ) (w : World),
      f.options.IgnoreTileValidation = true →
      f.ElevationAt lat lon w = f.readElevation lat lon w ∧
      f.ElevationAt lat lon w ≠ .error ErrorInvalidFileName ∧
      f.ElevationAt lat lon w ≠ .error ErrorOutOfRange) ∧
    (∀ (f : File) (name : GoString) (v : Option Validator) (lat lon : ℚ) (w : World),
      f.options.IgnoreTileValidation = true →
      File.ElevationAt
        { f with info := { f.info with Name := name },
                 options := { RangeValidator := v, IgnoreTileValidation := true } }
        lat lon w = f.ElevationAt lat lon w) ∧
    (∀ (f : File) (lat lon : ℚ) (w : World) (b0 b1 : Fin 256),
      f.options.IgnoreTileValidation = true →
      ReadAt f.file (byteOffset lat lon f.size) w = .ok (b0, b1) →
      f.ElevationAt lat lon w =
        if decodeInt16 b0 b1 = -32768 then .error void
        else .ok (decodeInt16 b0 b1, f.resolution)) := by
  refine ⟨?_, ?_, ?_⟩
  · intro f lat lon w hI
    have h := ElevationAt_of_validation_none (validation_ignored lat lon hI) w
    refine ⟨h, ?_, ?_⟩
    · rw [h]; exact readElevation_ne_invalidFileName _ _ _ _
    · rw [h]; exact readElevation_ne_outOfRange _ _ _ _
  · intro f name v lat lon w hI
    rw [ElevationAt_of_validation_none (validation_ignored lat lon hI) w,
      ElevationAt_of_validation_none (validation_ignored lat lon rfl) w]
    exact readElevation_congr rfl rfl rfl
  · intro f lat lon w b0 b1 hI hr
    rw [ElevationAt_of_validation_none (validation_ignored lat lon hI) w]
    exact readElevation_of_ReadAt hr

/-- C12 on a sample tile with the malformed name `bad` and a validator that
rejects every coordinate: with validation ignored (48.7162, 21.2613) reads
elevation 205. -/
theorem C12_ignore_skips_validation_witness :
    (sampleTileWith "bad"
        { RangeValidator := some (fun _ _ => some ErrorOutOfRange),
          IgnoreTileValidation := true }).ElevationAt 48.7162 21.2613 sampleWorld
      = .ok (205, 1) ∧
    (sampleTileWith "bad"
        { RangeValidator := some (fun _ _ => some ErrorOutOfRange),
          IgnoreTileValidation := true }).ElevationAt 48.7162 21.2613 sampleWorld
      ≠ .error ErrorInvalidFileName ∧
    (sampleTileWith "bad"
        { RangeValidator := some (fun _ _ => some ErrorOutOfRange),
          IgnoreTileValidation := true }).ElevationAt 48.7162 21.2613 sampleWorld
      ≠ .error ErrorOutOfRange :=
  ⟨by decide!, ((C12_ignore_skips_validation.1 _ 48.7162 21.2613 sampleWorld rfl).2)⟩

/-! ## C14: the directory's range validator comes first -/

/-- C14: `DataDir.ElevationAt` runs the directory's range validator first.  For
every coordinate the validator rejects the call returns `0, 0` and the
validator's error and leaves the world as it was (no descriptor opened, no
store changed), whatever the directory path, the cache and the disk are: the
tile key, the cache and the files are not looked at. -/
theorem C14_dir_validator_first (h : DataDir) (v : Validator) (lat lon : ℚ)
    (err : GoError) (w : World)
    (hr : h.options.RangeValidator = some v) (hv : v lat lon = some err) :
    h.ElevationAt lat lon w = (.error err, w) ∧
    goTriple (h.ElevationAt lat lon w).1 = (0, 0, some err) ∧
    (h.ElevationAt lat lon w).2 = w ∧
    (∀ (dir : GoString) (cache : Option Cache),
      DataDir.ElevationAt
        { dir := dir, options := { Cache := cache, RangeValidator := some v } } lat lon w
        = (.error err, w)) := by
  have h1 := DataDir_validator_rejects w hr hv
  refine ⟨h1, by rw [h1]; rfl, by rw [h1], ?_⟩
  intro dir cache
  exact DataDir_validator_rejects w rfl hv

/-- C14 on a directory over the sample world with the default validator and a
cache that would answer every key: (60.7162, 21.2613) is rejected and the
world is unchanged. -/
theorem C14_dir_validator_first_witness :
    DataDir.ElevationAt
      { dir := "data".toList,
        options := { Cache := some { OnGet := fun _ _ => some (sampleTile "N48E021.hgt"),
                                     OnAdd := fun _ _ w => w,
                                     OnClear := fun w => (none, w) },
                     RangeValidator := some DefaultRangeValidator } }
      60.7162 21.2613 sampleWorld = (.error ErrorOutOfRange, sampleWorld) :=
  (C14_dir_validator_first _ DefaultRangeValidator 60.7162 21.2613 ErrorOutOfRange sampleWorld
    rfl (by decide!)).1

/-! ## C18: the read stays inside the file -/

theorem store_setStore_same {w : World} {id : Nat} (m : List (GoString × File))
    (h : id < w.maps.length) : (w.setStore id m).store id = m := by
  simp [World.store, World.setStore, List.getD_eq_getElem?_getD, h]

theorem store_setStore_other {w : World} {id j : Nat} (m : List (GoString × File))
    (h : j ≠ id) : (w.setStore id m).store j = w.store j := by
  simp [World.store, World.setStore, List.getD_eq_getElem?_getD, List.getElem?_set, h.symm]

theorem lookup_filter_ne {k k2 : GoString} (l : List (GoString × File)) (h : k2 ≠ k) :
    (l.filter (fun kv => kv.1 ≠ k)).lookup k2 = l.lookup k2 := by
  simp only [ne_eq, decide_not]
  induction l with
  | nil => rfl
  | cons a t ih =>
    obtain ⟨ak, av⟩ := a
    by_cases ha : ak = k
    · have hk : (k2 == k) = false := beq_false_of_ne h
      simp [List.filter, ha, List.lookup, hk, ih]
    · by_cases hk : k2 = ak
      · simp [List.filter, ha, List.lookup, hk]
      · have hk2 : (k2 == ak) = false := beq_false_of_ne hk
        simp [List.filter, ha, List.lookup, hk2, ih]

/-- The store of the cache `DefaultCache w0` creates is empty in the world
`DefaultCache w0` returns. -/
theorem DefaultCache_fresh (w0 : World) (key : GoString) :
    (DefaultCache w0).1.OnGet key (DefaultCache w0).2 = none := by
  simp [DefaultCache, World.store, List.getD_eq_getElem?_getD]

theorem DefaultCache_store_exists (w0 : World) :
    w0.maps.length < (DefaultCache w0).2.maps.length := by
  simp [DefaultCache]

/-- After `OnAdd key f` the key is bound to `f`. -/
theorem DefaultCache_get_add_same (w0 : World) {w : World} (key : GoString) (f : File)
    (h : w0.maps.length < w.maps.length) :
    (DefaultCache w0).1.OnGet key ((DefaultCache w0).1.OnAdd key f w) = some f := by
  simp only [DefaultCache]
  rw [store_setStore_same _ h]
  simp [List.lookup]

/-- `OnAdd key f` leaves the binding of every other key as it was. -/
theorem DefaultCache_get_add_other (w0 w : World) {key key2 : GoString} (f : File)
    (hk : key2 ≠ key) :
    (DefaultCache w0).1.OnGet key2 ((DefaultCache w0).1.OnAdd key f w)
      = (DefaultCache w0).1.OnGet key2 w := by
  simp only [DefaultCache]
  by_cases h : w0.maps.length < w.maps.length
  · rw [store_setStore_same _ h]
    have hb : (key2 == key) = false := beq_false_of_ne hk
    rw [List.lookup_cons, hb]
    exact lookup_filter_ne _ hk
  · have : w.setStore w0.maps.length
        ((key, f) :: (w.store w0.maps.length).filter (fun kv => kv.1 ≠ key)) = w := by
      simp only [World.setStore]
      rw [List.set_eq_of_length_le (not_lt.1 h)]
    rw [this]

/-! ## `OnClear` of the default cache -/

/-- The world after `Close`: the descriptor is no longer open. -/
theorem Close_world (f : File) (w : World) :
    (f.Close w).2 = { w with openFds := w.openFds.filter (· ≠ f.file.fd) } := by
  unfold File.Close
  split_ifs with h
  · rfl
  · have : w.openFds.filter (· ≠ f.file.fd) = w.openFds := by
      rw [List.filter_eq_self]
      intro a ha
      have : a ≠ f.file.fd := fun e => h (e ▸ ha)
      simpa using this
    rw [this]

theorem Close_setStore (f : File) (w : World) (id : Nat) (m : List (GoString × File)) :
    (f.Close (w.setStore id m)).2 = ((f.Close w).2).setStore id m := by
  rw [Close_world, Close_world]
  rfl

theorem closeAll_setStore (fs : List File) (w : World) (id : Nat)
    (m : List (GoString × File)) :
    closeAll fs (w.setStore id m) = (closeAll fs w).setStore id m := by
  induction fs generalizing w with
  | nil => rfl
  | cons f t ih =>
    simp only [closeAll, List.foldl_cons] at ih ⊢
    rw [Close_setStore, ih]

theorem closeAll_maps (fs : List File) (w : World) : (closeAll fs w).maps = w.maps := by
  induction fs generalizing w with
  | nil => rfl
  | cons f t ih =>
    simp only [closeAll, List.foldl_cons] at ih ⊢
    rw [ih, Close_world]

theorem closeAll_nextFd (fs : List File) (w : World) : (closeAll fs w).nextFd = w.nextFd := by
  induction fs generalizing w with
  | nil => rfl
  | cons f t ih =>
    simp only [closeAll, List.foldl_cons] at ih ⊢
    rw [ih, Close_world]

/-- A descriptor is open after `closeAll` exactly when it was open before and
belongs to none of the files. -/
theorem mem_closeAll_openFds (fs : List File) (w : World) (fd : Nat) :
    fd ∈ (closeAll fs w).openFds ↔ (fd ∈ w.openFds ∧ ∀ f ∈ fs, f.file.fd ≠ fd) := by
  induction fs generalizing w with
  | nil => simp [closeAll]
  | cons f t ih =>
    simp only [closeAll, List.foldl_cons] at ih ⊢
    rw [ih, Close_world]
    simp only [List.mem_filter, List.mem_cons, forall_eq_or_imp, decide_eq_true_eq]
    constructor
    · rintro ⟨⟨a, b⟩, c⟩
      exact ⟨a, fun e => b e.symm, c⟩
    · rintro ⟨a, b, c⟩
      exact ⟨⟨a, fun e => b e.symm⟩, c⟩

theorem setStore_setStore (w : World) (id : Nat) (m m2 : List (GoString × File)) :
    (w.setStore id m).setStore id m2 = w.setStore id m2 := by
  simp [World.setStore, List.set_set]

theorem set_getD_self {α : Type} (l : List α) (i : Nat) (d : α) (h : i < l.length) :
    l.set i (l.getD i d) = l := by
  apply List.ext_getElem?
  intro n
  rw [List.getElem?_set]
  split_ifs with h1
  · subst h1
    simp [List.getD_eq_getElem?_getD, h]
  · rfl

theorem setStore_store_self (w : World) {id : Nat} (h : id < w.maps.length) :
    w.setStore id (w.store id) = w := by
  simp only [World.setStore, World.store, set_getD_self _ _ _ h]

theorem filter_ne_key_self {k : GoString} (l : List (GoString × File))
    (h : k ∉ l.map Prod.fst) : l.filter (fun kv => kv.1 ≠ k) = l := by
  rw [List.filter_eq_self]
  intro a ha
  have : a.1 ≠ k := fun e => h (List.mem_map.2 ⟨a, ha, e⟩)
  simpa using this

/-- The `Range` loop of `OnClear` over a store with distinct keys: one `Close`
for the file of each entry, and the store left empty. -/
theorem clear_foldl (id : Nat) (l : List (GoString × File)) (w : World)
    (hid : id < w.maps.length) (hs : w.store id = l) (hn : (l.map Prod.fst).Nodup) :
    l.foldl (clearStep id) w = (closeAll (l.map Prod.snd) w).setStore id [] := by
  induction l generalizing w with
  | nil =>
    simp only [List.foldl_nil, List.map_nil, closeAll]
    rw [← hs, setStore_store_self w hid]
  | cons a t ih =>
    obtain ⟨k, f⟩ := a
    simp only [List.map_cons, List.nodup_cons] at hn
    have hstep : clearStep id w (k, f) = ((f.Close w).2).setStore id t := by
      have hl : (w.store id).lookup k = some f := by
        rw [hs]; simp [List.lookup]
      have hst : ((f.Close w).2).store id = (k, f) :: t := by
        rw [Close_world]; exact hs
      have hf : ((k, f) :: t).filter (fun kv => kv.1 ≠ k) = t := by
        have := filter_ne_key_self t hn.1
        simp only [ne_eq, decide_not] at this ⊢
        simp [List.filter, this]
      simp only [clearStep, hl, hst, hf]
    have hlen : id < (((f.Close w).2).setStore id t).maps.length := by
      rw [Close_world]
      simpa [World.setStore] using hid
    have hst2 : (((f.Close w).2).setStore id t).store id = t := by
      apply store_setStore_same
      rw [Close_world]; exact hid
    rw [List.foldl_cons, hstep, ih _ hlen hst2 hn.2, closeAll_setStore, setStore_setStore]
    rfl

/-- Files with distinct open descriptors are each closed without error. -/
theorem closeResults_all_none (fs : List File) (w : World)
    (hn : (fs.map (fun f => f.file.fd)).Nodup) (ho : ∀ f ∈ fs, f.file.fd ∈ w.openFds) :
    closeResults fs w = List.replicate fs.length none := by
  induction fs generalizing w with
  | nil => rfl
  | cons f t ih =>
    simp only [List.map_cons, List.nodup_cons] at hn
    have h1 : (f.Close w).1 = none := by
      simp [File.Close, ho f (List.mem_cons_self _ _)]
    have h2 : ∀ g ∈ t, g.file.fd ∈ (f.Close w).2.openFds := by
      intro g hg
      rw [Close_world]
      have hne : g.file.fd ≠ f.file.fd := fun e =>
        hn.1 (List.mem_map.2 ⟨g, hg, e⟩)
      simp [List.mem_filter, ho g (List.mem_cons_of_mem _ hg), hne]
    simp only [closeResults, h1, ih _ hn.2 h2, List.length_cons, List.replicate_succ]

/-- `OnAdd` keeps the keys of the store distinct. -/
theorem add_keys_nodup (key : GoString) (f : File) (l : List (GoString × File))
    (h : (l.map Prod.fst).Nodup) :
    (((key, f) :: l.filter (fun kv => kv.1 ≠ key)).map Prod.fst).Nodup := by
  simp only [List.map_cons, List.nodup_cons]
  constructor
  · intro hm
    obtain ⟨a, ha, hk⟩ := List.mem_map.1 hm
    have := (List.mem_filter.1 ha).2
    simp only [ne_eq, decide_not, Bool.not_eq_true', decide_eq_false_iff_not] at this
    exact this hk
  · exact h.sublist ((List.filter_sublist l).map Prod.fst)

/-- The store of the default cache after `OnAdd`. -/
theorem DefaultCache_store_add (w0 : World) {w : World} (key : GoString) (f : File)
    (h : w0.maps.length < w.maps.length) :
    ((DefaultCache w0).1.OnAdd key f w).store w0.maps.length =
      (key, f) :: (w.store w0.maps.length).filter (fun kv => kv.1 ≠ key) := by
  simp only [DefaultCache]
  exact store_setStore_same _ h

/-- C15: the default cache is a map from keys to files.  After `OnAdd key f`,
`OnGet key` returns `f` and `OnGet` of every other key is as before, so a
second `OnAdd` on the same key overwrites; in the world `DefaultCache` returns,
`OnGet` of every key is absent.  `OnClear` returns no error and leaves the
world that one call of `Close` on the file of each entry, in order, leaves,
with the store emptied: afterwards `OnGet` is absent for every key, the
descriptor of every held file is closed and no other descriptor is touched;
when the held files have distinct open descriptors no `Close` call fails, so
none is closed twice.  `DataDir.Close` is `OnClear` of the directory's
cache. -/
theorem C15_default_cache_map :
    (∀ (w0 w : World) (key : GoString) (f : File), w0.maps.length < w.maps.length →
      (DefaultCache w0).1.OnGet key ((DefaultCache w0).1.OnAdd key f w) = some f) ∧
    (∀ (w0 w : World) (key key2 : GoString) (f : File), key2 ≠ key →
      (DefaultCache w0).1.OnGet key2 ((DefaultCache w0).1.OnAdd key f w)
        = (DefaultCache w0).1.OnGet key2 w) ∧
    (∀ (w0 w : World) (key : GoString) (f1 f2 : File), w0.maps.length < w.maps.length →
      (DefaultCache w0).1.OnGet key
        ((DefaultCache w0).1.OnAdd key f2 ((DefaultCache w0).1.OnAdd key f1 w)) = some f2) ∧
    (∀ (w0 : World) (key : GoString),
      (DefaultCache w0).1.OnGet key (DefaultCache w0).2 = none ∧
      w0.maps.length < (DefaultCache w0).2.maps.length) ∧
    (∀ (w0 w : World) (key : GoString) (f : File), w0.maps.length < w.maps.length →
      ((w.store w0.maps.length).map Prod.fst).Nodup →
      ((((DefaultCache w0).1.OnAdd key f w).store w0.maps.length).map Prod.fst).Nodup) ∧
    (∀ (w0 w : World), w0.maps.length < w.maps.length →
      ((w.store w0.maps.length).map Prod.fst).Nodup →
      ((DefaultCache w0).1.OnClear w).1 = none ∧
      ((DefaultCache w0).1.OnClear w).2 =
        (closeAll ((w.store w0.maps.length).map Prod.snd) w).setStore w0.maps.length [] ∧
      (∀ key, (DefaultCache w0).1.OnGet key ((DefaultCache w0).1.OnClear w).2 = none) ∧
      (∀ kv ∈ w.store w0.maps.length,
        kv.2.file.fd ∉ ((DefaultCache w0).1.OnClear w).2.openFds) ∧
      (∀ fd ∈ w.openFds, (∀ kv ∈ w.store w0.maps.length, kv.2.file.fd ≠ fd) →
        fd ∈ ((DefaultCache w0).1.OnClear w).2.openFds) ∧
      ((((w.store w0.maps.length).map Prod.snd).map (fun f => f.file.fd)).Nodup →
        (∀ kv ∈ w.store w0.maps.length, kv.2.file.fd ∈ w.openFds) →
        closeResults ((w.store w0.maps.length).map Prod.snd) w =
          List.replicate (w.store w0.maps.length).length none)) ∧
    (∀ (h : DataDir) (cache : Cache) (w : World), h.options.Cache = some cache →
      h.Close w = cache.OnClear w) := by
  refine ⟨?_, ?_, ?_, ?_, ?_, ?_, ?_⟩
  · intro w0 w key f h
    exact DefaultCache_get_add_same w0 key f h
  · intro w0 w key key2 f hk
    exact DefaultCache_get_add_other w0 w f hk
  · intro w0 w key f1 f2 h
    apply DefaultCache_get_add_same
    simpa [DefaultCache, World.setStore] using h
  · intro w0 key
    exact ⟨DefaultCache_fresh w0 key, DefaultCache_store_exists w0⟩
  · intro w0 w key f h hn
    rw [DefaultCache_store_add w0 key f h]
    exact add_keys_nodup key f _ hn
  · intro w0 w h hn
    have hc : ((DefaultCache w0).1.OnClear w).2 =
        (closeAll ((w.store w0.maps.length).map Prod.snd) w).setStore w0.maps.length [] := by
      simp only [DefaultCache]
      exact clear_foldl _ _ w h rfl hn
    have hlen : w0.maps.length < (closeAll ((w.store w0.maps.length).map Prod.snd) w).maps.length := by
      rw [closeAll_maps]; exact h
    refine ⟨rfl, hc, ?_, ?_, ?_, ?_⟩
    · intro key
      rw [hc]
      simp only [DefaultCache]
      rw [store_setStore_same _ hlen]
      rfl
    · intro kv hkv hmem
      rw [hc] at hmem
      have hmem2 : kv.2.file.fd ∈ (closeAll ((w.store w0.maps.length).map Prod.snd) w).openFds :=
        hmem
      rw [mem_closeAll_openFds] at hmem2
      exact hmem2.2 kv.2 (List.mem_map.2 ⟨kv, hkv, rfl⟩) rfl
    · intro fd hfd hne
      rw [hc]
      have : fd ∈ (closeAll ((w.store w0.maps.length).map Prod.snd) w).openFds := by
        rw [mem_closeAll_openFds]
        refine ⟨hfd, ?_⟩
        intro f hf
        obtain ⟨kv, hkv, rfl⟩ := List.mem_map.1 hf
        exact hne kv hkv
      exact this
    · intro hnd ho
      rw [closeResults_all_none _ w hnd, List.length_map]
      intro f hf
      obtain ⟨kv, hkv, rfl⟩ := List.mem_map.1 hf
      exact ho kv hkv
  · intro h cache w hc
    simp [DataDir.Close, hc]

/-- C15 on the sample world: a fresh default cache, the sample tile added
under `N48E021.hgt`, then `OnClear`: the key is found after the add, and after
`OnClear` it is absent and descriptor 0 is closed. -/
theorem C15_default_cache_map_witness :
    (DefaultCache sampleWorld).1.OnGet "N48E021.hgt".toList sampleCachedWorld
      = some (sampleTile "N48E021.hgt") ∧
    ((DefaultCache sampleWorld).1.OnClear sampleCachedWorld).1 = none ∧
    (∀ key, (DefaultCache sampleWorld).1.OnGet key
      ((DefaultCache sampleWorld).1.OnClear sampleCachedWorld).2 = none) ∧
    ((DefaultCache sampleWorld).1.OnClear sampleCachedWorld).2.openFds = [] :=
  ⟨C15_default_cache_map.1 sampleWorld (DefaultCache sampleWorld).2 "N48E021.hgt".toList
      (sampleTile "N48E021.hgt") (by decide),
    (C15_default_cache_map.2.2.2.2.2.1 sampleWorld sampleCachedWorld (by decide)
      (by decide)).1,
    (C15_default_cache_map.2.2.2.2.2.1 sampleWorld sampleCachedWorld (by decide)
      (by decide)).2.2.1,
    by decide⟩

/-! ## C13: a cache miss, and the hit that follows -/

/-- After an accepting (or absent) range validator, `DataDir.ElevationAt` with
a cache: a hit is answered by the cached file and leaves the world alone; a
miss opens the tile path, adds the file and asks it. -/
theorem DataDir_cached {h : DataDir} {cache : Cache} {lat lon : ℚ} (w : World)
    (hc : h.options.Cache = some cache)
    (hv : ∀ v, h.options.RangeValidator = some v → v lat lon = none) :
    h.ElevationAt lat lon w =
      match cache.OnGet (fileName lat lon) w with
      | some f => (f.ElevationAt lat lon w, w)
      | none =>
        match Open (h.tilePath lat lon) (some dirFileOptions) w with
        | (.error err, w1) => (.error err, w1)
        | (.ok f, w1) =>
          (f.ElevationAt lat lon (cache.OnAdd (fileName lat lon) f w1),
            cache.OnAdd (fileName lat lon) f w1) := by
  have hval : (match h.options.RangeValidator with
           | some v => v lat lon
           | none => none) = none := by
    cases hr : h.options.RangeValidator with
    | none => rfl
    | some v => exact hv v hr
  unfold DataDir.ElevationAt
  simp only [hval, hc]
  rfl

/-- After an accepting (or absent) range validator, `DataDir.ElevationAt`
without a cache: open, ask, close. -/
theorem DataDir_uncached {h : DataDir} {lat lon : ℚ} (w : World)
    (hc : h.options.Cache = none)
    (hv : ∀ v, h.options.RangeValidator = some v → v lat lon = none) :
    h.ElevationAt lat lon w =
      match Open (h.tilePath lat lon) (some dirFileOptions) w with
      | (.error err, w1) => (.error err, w1)
      | (.ok f, w1) => (f.ElevationAt lat lon w1, (f.Close w1).2) := by
  have hval : (match h.options.RangeValidator with
           | some v => v lat lon
           | none => none) = none := by
    cases hr : h.options.RangeValidator with
    | none => rfl
    | some v => exact hv v hr
  unfold DataDir.ElevationAt
  simp only [hval, hc]
  rfl

/-- `Open` gives the file the options it was called with. -/
theorem Open_options {name : GoString} {o : FileOptions} {w : World} {f : File}
    (h : (Open name (some o) w).1 = .ok f) : f.options = o := by
  unfold Open at h
  cases hd : w.disk name with
  | error err => simp [hd] at h
  | ok d =>
    simp only [hd] at h
    split_ifs at h <;> simp only [Except.ok.injEq] at h <;> subst h <;> rfl

/-- `Open` changes neither the disk nor the stores; it only takes a
descriptor. -/
theorem Open_world (name : GoString) (o : Option FileOptions) (w : World) :
    (Open name o w).2.maps = w.maps ∧ (Open name o w).2.disk = w.disk ∧
      (Open name o w).2.stat = w.stat := by
  unfold Open
  cases hd : w.disk name with
  | error err => exact ⟨rfl, rfl, rfl⟩
  | ok d =>
    simp only
    split_ifs <;> exact ⟨rfl, rfl, rfl⟩

/-- C13: `DataDir.ElevationAt`, past the range validator, with a cache that
misses the key `fileName lat lon`: it opens `dir + separator + fileName lat
lon` with `IgnoreTileValidation = true`; when the open succeeds it adds the
file under that key and returns what the file answers; when the open fails it
returns the open error and the world `Open` left, in which no store has
changed.  A query that hits is answered by the cached file and leaves the
world unchanged.  With the default cache, after a miss whose open succeeded
the key is bound to the opened file, and a query for any accepted coordinate
with the same floors of latitude and longitude is answered by that file with
no descriptor opened. -/
theorem C13_cache_miss_then_hit :
    (∀ (h : DataDir) (cache : Cache) (lat lon : ℚ) (w : World),
      h.options.Cache = some cache →
      (∀ v, h.options.RangeValidator = some v → v lat lon = none) →
      cache.OnGet (fileName lat lon) w = none →
      (∀ (f : File) (w1 : World),
        Open (h.dir ++ [PathSeparator] ++ fileName lat lon)
          (some { RangeValidator := none, IgnoreTileValidation := true }) w = (.ok f, w1) →
        f.options.IgnoreTileValidation = true ∧
        h.ElevationAt lat lon w =
          (f.ElevationAt lat lon (cache.OnAdd (fileName lat lon) f w1),
            cache.OnAdd (fileName lat lon) f w1)) ∧
      (∀ (err : GoError) (w1 : World),
        Open (h.dir ++ [PathSeparator] ++ fileName lat lon)
          (some { RangeValidator := none, IgnoreTileValidation := true }) w
            = (.error err, w1) →
        h.ElevationAt lat lon w = (.error err, w1) ∧ w1.maps = w.maps ∧
        (w.disk (h.dir ++ [PathSeparator] ++ fileName lat lon) = .error err → w1 = w))) ∧
    (∀ (h : DataDir) (cache : Cache) (lat lon : ℚ) (w : World) (f : File),
      h.options.Cache = some cache →
      (∀ v, h.options.RangeValidator = some v → v lat lon = none) →
      cache.OnGet (fileName lat lon) w = some f →
      h.ElevationAt lat lon w = (f.ElevationAt lat lon w, w)) ∧
    (∀ (w0 w w1 : World) (dir : GoString) (v : Option Validator) (lat lon lat2 lon2 : ℚ)
      (f : File),
      w0.maps.length < w.maps.length →
      (∀ u, v = some u → u lat lon = none) →
      (∀ u, v = some u → u lat2 lon2 = none) →
      ⌊lat2⌋ = ⌊lat⌋ → ⌊lon2⌋ = ⌊lon⌋ →
      (DefaultCache w0).1.OnGet (fileName lat lon) w = none →
      Open (dir ++ [PathSeparator] ++ fileName lat lon)
        (some { RangeValidator := none, IgnoreTileValidation := true }) w = (.ok f, w1) →
      (DefaultCache w0).1.OnGet (fileName lat lon)
        (DataDir.ElevationAt
          { dir := dir, options := { Cache := some (DefaultCache w0).1, RangeValidator := v } }
          lat lon w).2 = some f ∧
      DataDir.ElevationAt
        { dir := dir, options := { Cache := some (DefaultCache w0).1, RangeValidator := v } }
        lat2 lon2
        (DataDir.ElevationAt
          { dir := dir, options := { Cache := some (DefaultCache w0).1, RangeValidator := v } }
          lat lon w).2 =
        (f.ElevationAt lat2 lon2
          (DataDir.ElevationAt
            { dir := dir,
              options := { Cache := some (DefaultCache w0).1, RangeValidator := v } }
            lat lon w).2,
         (DataDir.ElevationAt
            { dir := dir,
              options := { Cache := some (DefaultCache w0).1, RangeValidator := v } }
            lat lon w).2)) := by
  refine ⟨?_, ?_, ?_⟩
  · intro h cache lat lon w hc hv hmiss
    have hD := DataDir_cached w hc hv
    rw [hmiss] at hD
    refine ⟨?_, ?_⟩
    · intro f w1 ho
      have ho2 : Open (h.tilePath lat lon) (some dirFileOptions) w = (.ok f, w1) := ho
      refine ⟨?_, ?_⟩
      · have := Open_options (congrArg Prod.fst ho2)
        rw [this]; rfl
      · rw [hD, ho2]
    · intro err w1 ho
      have ho2 : Open (h.tilePath lat lon) (some dirFileOptions) w = (.error err, w1) := ho
      refine ⟨?_, ?_, ?_⟩
      · rw [hD, ho2]
      · have := (Open_world (h.tilePath lat lon) (some dirFileOptions) w).1
        rw [ho2] at this
        exact this
      · intro hd
        have hd2 : w.disk (h.tilePath lat lon) = .error err := hd
        have : Open (h.tilePath lat lon) (some dirFileOptions) w = (.error err, w) := by
          simp [Open, hd2]
        rw [this] at ho2
        exact (congrArg Prod.snd ho2).symm
  · intro h cache lat lon w f hc hv hhit
    have hD := DataDir_cached w hc hv
    rw [hhit] at hD
    exact hD
  · intro w0 w w1 dir v lat lon lat2 lon2 f hlen hv hv2 hf1 hf2 hmiss ho
    have hname : fileName lat2 lon2 = fileName lat lon := fileName_congr hf1 hf2
    have ho2 : Open (DataDir.tilePath
        { dir := dir, options := { Cache := some (DefaultCache w0).1, RangeValidator := v } }
        lat lon) (some dirFileOptions) w = (.ok f, w1) := ho
    have hD := @DataDir_cached
      { dir := dir, options := { Cache := some (DefaultCache w0).1, RangeValidator := v } }
      (DefaultCache w0).1 lat lon w rfl hv
    rw [hmiss] at hD
    simp only [ho2] at hD
    have hlen1 : w0.maps.length < w1.maps.length := by
      have := (Open_world (dir ++ [PathSeparator] ++ fileName lat lon)
        (some { RangeValidator := none, IgnoreTileValidation := true }) w).1
      rw [ho] at this
      simp only at this
      rw [this]; exact hlen
    have hget := DefaultCache_get_add_same w0 (fileName lat lon) f hlen1
    rw [hD]
    refine ⟨hget, ?_⟩
    have hD2 := @DataDir_cached
      { dir := dir, options := { Cache := some (DefaultCache w0).1, RangeValidator := v } }
      (DefaultCache w0).1 lat2 lon2
      ((DefaultCache w0).1.OnAdd (fileName lat lon) f w1) rfl hv2
    rw [hname, hget] at hD2
    exact hD2

/-- C13 on the directory `data` of the sample world with a fresh default
cache and the default validator: (48.7162, 21.2613) misses, opens
`data/N48E021.hgt` and reads 205; (48.1, 21.9) of the same tile then hits. -/
theorem C13_cache_miss_then_hit_witness :
    (DataDir.ElevationAt
      { dir := "data".toList,
        options := { Cache := some (DefaultCache sampleWorld).1,
                     RangeValidator := some DefaultRangeValidator } }
      48.7162 21.2613 (DefaultCache sampleWorld).2).1 = .ok (205, 1) ∧
    (∃ f : File,
      (DefaultCache sampleWorld).1.OnGet (fileName 48.7162 21.2613)
        (DataDir.ElevationAt
          { dir := "data".toList,
            options := { Cache := some (DefaultCache sampleWorld).1,
                         RangeValidator := some DefaultRangeValidator } }
          48.7162 21.2613 (DefaultCache sampleWorld).2).2 = some f ∧
      DataDir.ElevationAt
        { dir := "data".toList,
          options := { Cache := some (DefaultCache sampleWorld).1,
                       RangeValidator := some DefaultRangeValidator } }
        48.1 21.9
        (DataDir.ElevationAt
          { dir := "data".toList,
            options := { Cache := some (DefaultCache sampleWorld).1,
                         RangeValidator := some DefaultRangeValidator } }
          48.7162 21.2613 (DefaultCache sampleWorld).2).2 =
        (f.ElevationAt 48.1 21.9
          (DataDir.ElevationAt
            { dir := "data".toList,
              options := { Cache := some (DefaultCache sampleWorld).1,
                           RangeValidator := some DefaultRangeValidator } }
            48.7162 21.2613 (DefaultCache sampleWorld).2).2,
         (DataDir.ElevationAt
            { dir := "data".toList,
              options := { Cache := some (DefaultCache sampleWorld).1,
                           RangeValidator := some DefaultRangeValidator } }
            48.7162 21.2613 (DefaultCache sampleWorld).2).2)) :=
  ⟨by decide!,
    ⟨sampleOpenedFile,
      C13_cache_miss_then_hit.2.2 sampleWorld (DefaultCache sampleWorld).2 sampleOpenedWorld
        "data".toList (some DefaultRangeValidator) 48.7162 21.2613 48.1 21.9 sampleOpenedFile
        (by decide) (by intro u hu; cases hu; decide!) (by intro u hu; cases hu; decide!)
        (by decide!) (by decide!) (DefaultCache_fresh sampleWorld _)
        (by rw [show fileName 48.7162 21.2613 = "N48E021.hgt".toList from by decide!]; rfl)⟩⟩

/-! ## C16: the defaults of `OpenDataDir` -/

/-- An open file over the disk file `d` answers as the bytes of `d` do. -/
theorem ElevationAt_servesDisk {f : File} {d : DiskFile} (lat lon : ℚ) {w : World}
    (hs : f.servesDisk d) (ho : f.file.fd ∈ w.openFds) :
    f.ElevationAt lat lon w = diskElevation d f.size f.resolution lat lon := by
  obtain ⟨h1, h2, h3, _⟩ := hs
  rw [ElevationAt_of_validation_none (validation_ignored lat lon h3) w]
  unfold File.readElevation ReadAt diskElevation
  simp only [ho, not_true_eq_false, if_false, h1, h2]
  split_ifs <;> simp [*]

/-- What `Open` with the directory's options returns, by the disk. -/
theorem Open_dir (path : GoString) (w : World) :
    (∃ err, w.disk path = .error err ∧ Open path (some dirFileOptions) w = (.error err, w)) ∨
    (∃ d, w.disk path = .ok d ∧ d.length ≠ 2884802 ∧ d.length ≠ 25934402 ∧
      (Open path (some dirFileOptions) w).1 = .error ErrorUnsupportedResolution) ∨
    (∃ d f, w.disk path = .ok d ∧ (Open path (some dirFileOptions) w).1 = .ok f ∧
      f.servesDisk d ∧ f.file.fd ∈ (Open path (some dirFileOptions) w).2.openFds) := by
  cases hd : w.disk path with
  | error err => exact Or.inl ⟨err, rfl, by simp [Open, hd]⟩
  | ok d =>
    right
    by_cases h3 : d.length = 2884802
    · right
      refine ⟨d, { file := { fd := w.nextFd, length := d.length, byteAt := d.byteAt },
                   info := { Name := basename path, Size := d.length },
                   resolution := Resolution3ArcSecond, size := 1201,
                   options := dirFileOptions }, rfl, ?_, ?_, ?_⟩
      · simp [Open, hd, h3]
      · exact ⟨rfl, rfl, rfl, Or.inl ⟨h3, rfl, rfl⟩⟩
      · simp [Open, hd, h3]
    · by_cases h1 : d.length = 25934402
      · right
        refine ⟨d, { file := { fd := w.nextFd, length := d.length, byteAt := d.byteAt },
                     info := { Name := basename path, Size := d.length },
                     resolution := Resolution1ArcSecond, size := 3601,
                     options := dirFileOptions }, rfl, ?_, ?_, ?_⟩
        · simp [Open, hd, h1]
        · exact ⟨rfl, rfl, rfl, Or.inr ⟨h1, rfl, rfl⟩⟩
        · simp [Open, hd, h1]
      · left
        have m1 : ¬ ((d.length : Int) = 2884802) := by omega
        have m2 : ¬ ((d.length : Int) = 25934402) := by omega
        exact ⟨d, rfl, h3, h1, by simp [Open, hd, m1, m2]⟩

/-- The answer by length of a disk file, as `dirAnswer` takes it. -/
theorem ElevationAt_servesDisk_byLength {f : File} {d : DiskFile} (lat lon : ℚ) {w : World}
    (hs : f.servesDisk d) (ho : f.file.fd ∈ w.openFds) :
    f.ElevationAt lat lon w =
      if d.length = 2884802 then diskElevation d 1201 Resolution3ArcSecond lat lon
      else if d.length = 25934402 then diskElevation d 3601 Resolution1ArcSecond lat lon
      else .error ErrorUnsupportedResolution := by
  rw [ElevationAt_servesDisk lat lon hs ho]
  obtain ⟨_, _, _, h | h⟩ := hs
  · obtain ⟨a, b, c⟩ := h
    rw [if_pos a, b, c]
  · obtain ⟨a, b, c⟩ := h
    have : ¬ d.length = 2884802 := by omega
    rw [if_neg this, if_pos a, b, c]

theorem dirAnswer_rejected {dir : GoString} {v : Option Validator} {u : Validator}
    (disk : GoString → Except GoError DiskFile) {lat lon : ℚ} {err : GoError}
    (hv : v = some u) (hu : u lat lon = some err) :
    dirAnswer dir v disk lat lon = .error err := by
  simp [dirAnswer, hv, hu]

theorem dirAnswer_accepted {dir : GoString} {v : Option Validator}
    (disk : GoString → Except GoError DiskFile) {lat lon : ℚ}
    (hv : ∀ u, v = some u → u lat lon = none) :
    dirAnswer dir v disk lat lon =
      match disk (dir ++ [PathSeparator] ++ fileName lat lon) with
      | .error err => .error err
      | .ok d =>
        if d.length = 2884802 then diskElevation d 1201 Resolution3ArcSecond lat lon
        else if d.length = 25934402 then diskElevation d 3601 Resolution1ArcSecond lat lon
        else .error ErrorUnsupportedResolution := by
  have hval : (match v with
           | some u => u lat lon
           | none => none) = none := by
    cases hr : v with
    | none => rfl
    | some u => exact hv u hr
  simp only [dirAnswer, hval]

/-- A validator either accepts a coordinate (or is absent) or rejects it. -/
theorem validator_cases (v : Option Validator) (lat lon : ℚ) :
    (∀ u, v = some u → u lat lon = none) ∨ (∃ u err, v = some u ∧ u lat lon = some err) := by
  cases hv : v with
  | none => exact Or.inl (fun u hu => by cases hu)
  | some u =>
    cases hu : u lat lon with
    | none => exact Or.inl (fun u2 h2 => by cases h2; exact hu)
    | some err => exact Or.inr ⟨u, err, rfl, hu⟩

/-- Without a cache the answer is the one the disk owes, and the disk is left
as it was. -/
theorem uncached_answer (dir : GoString) (v : Option Validator) (lat lon : ℚ) (w : World) :
    (DataDir.ElevationAt { dir := dir, options := { Cache := none, RangeValidator := v } }
      lat lon w).1 = dirAnswer dir v w.disk lat lon ∧
    (DataDir.ElevationAt { dir := dir, options := { Cache := none, RangeValidator := v } }
      lat lon w).2.disk = w.disk := by
  rcases validator_cases v lat lon with hv | ⟨u, err, hu, he⟩
  · rw [@DataDir_uncached { dir := dir, options := { Cache := none, RangeValidator := v } }
      lat lon w rfl hv, dirAnswer_accepted w.disk hv]
    have hp : DataDir.tilePath
        { dir := dir, options := { Cache := none, RangeValidator := v } } lat lon
        = dir ++ [PathSeparator] ++ fileName lat lon := rfl
    rw [hp]
    have hW := Open_world (dir ++ [PathSeparator] ++ fileName lat lon)
      (some dirFileOptions) w
    rcases Open_dir (dir ++ [PathSeparator] ++ fileName lat lon) w with
      ⟨err, hd, ho⟩ | ⟨d, hd, n1, n2, ho⟩ | ⟨d, f, hd, ho, hs, hfd⟩
    · rw [ho, hd]
      exact ⟨rfl, rfl⟩
    · cases hO : Open (dir ++ [PathSeparator] ++ fileName lat lon)
        (some dirFileOptions) w with
      | mk r w1 =>
        rw [hO] at ho hW
        simp only at ho
        subst ho
        rw [hd]
        refine ⟨?_, hW.2.1⟩
        simp only [n1, n2, if_false]
    · cases hO : Open (dir ++ [PathSeparator] ++ fileName lat lon)
        (some dirFileOptions) w with
      | mk r w1 =>
        rw [hO] at ho hW hfd
        simp only at ho hfd
        subst ho
        rw [hd]
        simp only
        refine ⟨ElevationAt_servesDisk_byLength lat lon hs hfd, ?_⟩
        rw [Close_world]
        exact hW.2.1
  · rw [DataDir_validator_rejects w hu he, dirAnswer_rejected w.disk hu he]
    exact ⟨rfl, rfl⟩

/-- `Open` closes nothing. -/
theorem Open_openFds_mono (path : GoString) (o : Option FileOptions) (w : World) {fd : Nat}
    (h : fd ∈ w.openFds) : fd ∈ (Open path o w).2.openFds := by
  unfold Open
  cases hd : w.disk path with
  | error err => exact h
  | ok d =>
    simp only
    split_ifs <;> exact List.mem_cons_of_mem _ h

/-- `Open` keeps a consistent store consistent. -/
theorem cacheConsistent_Open {dir : GoString} {id : Nat} {w : World} (path : GoString)
    (o : Option FileOptions) (h : cacheConsistent dir id w) :
    cacheConsistent dir id (Open path o w).2 := by
  obtain ⟨hm, hd, _⟩ := Open_world path o w
  obtain ⟨hlen, hall⟩ := h
  refine ⟨by rw [hm]; exact hlen, ?_⟩
  intro key f hl
  have hl2 : (w.store id).lookup key = some f := by
    simpa [World.store, hm] using hl
  obtain ⟨hfd, d, hdk, hs⟩ := hall key f hl2
  exact ⟨Open_openFds_mono path o w hfd, d, by rw [hd]; exact hdk, hs⟩

/-- `OnAdd` of a file over the disk file of its key keeps a consistent store
consistent. -/
theorem cacheConsistent_add {dir : GoString} (w0 : World) {w : World} {key : GoString}
    {f : File} {d : DiskFile} (h : cacheConsistent dir w0.maps.length w)
    (hfd : f.file.fd ∈ w.openFds) (hd : w.disk (dir ++ [PathSeparator] ++ key) = .ok d)
    (hs : f.servesDisk d) :
    cacheConsistent dir w0.maps.length ((DefaultCache w0).1.OnAdd key f w) := by
  obtain ⟨hlen, hall⟩ := h
  refine ⟨by simpa [DefaultCache, World.setStore] using hlen, ?_⟩
  intro key2 f2 hl
  by_cases hk : key2 = key
  · subst hk
    have hg := DefaultCache_get_add_same w0 key2 f hlen
    have hl2 : (DefaultCache w0).1.OnGet key2 ((DefaultCache w0).1.OnAdd key2 f w) = some f2 := hl
    rw [hg] at hl2
    cases hl2
    exact ⟨hfd, d, hd, hs⟩
  · have hg := DefaultCache_get_add_other w0 w f hk
    have hl2 : (DefaultCache w0).1.OnGet key2 ((DefaultCache w0).1.OnAdd key f w) = some f2 := hl
    rw [hg] at hl2
    obtain ⟨a, d2, b, c⟩ := hall key2 f2 hl2
    exact ⟨a, d2, b, c⟩

/-- With a default cache whose store is consistent the answer is the one the
disk owes; the store stays consistent and the disk is left as it was. -/
theorem cached_answer (w0 : World) (dir : GoString) (v : Option Validator) (lat lon : ℚ)
    (w : World) (hinv : cacheConsistent dir w0.maps.length w) :
    (DataDir.ElevationAt
      { dir := dir, options := { Cache := some (DefaultCache w0).1, RangeValidator := v } }
      lat lon w).1 = dirAnswer dir v w.disk lat lon ∧
    cacheConsistent dir w0.maps.length (DataDir.ElevationAt
      { dir := dir, options := { Cache := some (DefaultCache w0).1, RangeValidator := v } }
      lat lon w).2 ∧
    (DataDir.ElevationAt
      { dir := dir, options := { Cache := some (DefaultCache w0).1, RangeValidator := v } }
      lat lon w).2.disk = w.disk := by
  rcases validator_cases v lat lon with hv | ⟨u, err, hu, he⟩
  · rw [@DataDir_cached
      { dir := dir, options := { Cache := some (DefaultCache w0).1, RangeValidator := v } }
      (DefaultCache w0).1 lat lon w rfl hv, dirAnswer_accepted w.disk hv]
    have hp : DataDir.tilePath
        { dir := dir, options := { Cache := some (DefaultCache w0).1, RangeValidator := v } }
        lat lon = dir ++ [PathSeparator] ++ fileName lat lon := rfl
    rw [hp]
    cases hget : (DefaultCache w0).1.OnGet (fileName lat lon) w with
    | some f =>
      obtain ⟨hfd, d, hd, hs⟩ := hinv.2 (fileName lat lon) f hget
      refine ⟨?_, hinv, rfl⟩
      simp only
      rw [hd]
      exact ElevationAt_servesDisk_byLength lat lon hs hfd
    | none =>
      simp only
      have hW := Open_world (dir ++ [PathSeparator] ++ fileName lat lon)
        (some dirFileOptions) w
      have hC := cacheConsistent_Open (dir ++ [PathSeparator] ++ fileName lat lon)
        (some dirFileOptions) hinv
      rcases Open_dir (dir ++ [PathSeparator] ++ fileName lat lon) w with
        ⟨err, hd, ho⟩ | ⟨d, hd, n1, n2, ho⟩ | ⟨d, f, hd, ho, hs, hfd⟩
      · rw [ho, hd]
        exact ⟨rfl, hinv, rfl⟩
      · cases hO : Open (dir ++ [PathSeparator] ++ fileName lat lon)
          (some dirFileOptions) w with
        | mk r w1 =>
          rw [hO] at ho hW hC
          simp only at ho
          subst ho
          rw [hd]
          refine ⟨?_, hC, hW.2.1⟩
          simp only [n1, n2, if_false]
      · cases hO : Open (dir ++ [PathSeparator] ++ fileName lat lon)
          (some dirFileOptions) w with
        | mk r w1 =>
          rw [hO] at ho hW hfd hC
          simp only at ho hfd hW hC
          subst ho
          rw [hd]
          simp only
          have hd1 : w1.disk (dir ++ [PathSeparator] ++ fileName lat lon) = .ok d := by
            rw [hW.2.1]; exact hd
          refine ⟨ElevationAt_servesDisk_byLength lat lon hs hfd,
            cacheConsistent_add w0 hC hfd hd1 hs, hW.2.1⟩
  · rw [DataDir_validator_rejects w hu he, dirAnswer_rejected w.disk hu he]
    exact ⟨rfl, hinv, rfl⟩

/-- A fresh default cache is consistent. -/
theorem cacheConsistent_fresh (dir : GoString) (w0 : World) :
    cacheConsistent dir w0.maps.length (DefaultCache w0).2 := by
  refine ⟨DefaultCache_store_exists w0, ?_⟩
  intro key f hl
  have : (DefaultCache w0).1.OnGet key (DefaultCache w0).2 = some f := hl
  rw [DefaultCache_fresh] at this
  cases this

/-- Sequences of queries: with a consistent default cache and without a
cache, over the same disk, the answers are the same. -/
theorem answers_eq (w0 : World) (dir : GoString) (v : Option Validator)
    (qs : List (ℚ × ℚ)) (wc wn : World)
    (hinv : cacheConsistent dir w0.maps.length wc) (hd : wn.disk = wc.disk) :
    DataDir.answers
      { dir := dir, options := { Cache := some (DefaultCache w0).1, RangeValidator := v } }
      qs wc =
    DataDir.answers { dir := dir, options := { Cache := none, RangeValidator := v } } qs wn := by
  induction qs generalizing wc wn with
  | nil => rfl
  | cons q t ih =>
    obtain ⟨c1, c2, c3⟩ := cached_answer w0 dir v q.1 q.2 wc hinv
    obtain ⟨u1, u2⟩ := uncached_answer dir v q.1 q.2 wn
    simp only [DataDir.answers]
    rw [c1, u1, hd, ih _ _ c2 (by rw [u2, c3, hd])]

/-- C20: for a fixed disk, directory path and range validator,
`DataDir.ElevationAt` gives the same result with a default cache as with no
cache (open, query, close on every call), for every coordinate, on a hit as
on a miss: in every state in which the store holds, under each key, an open
file over the tile of that key, both give the answer the disk alone
determines (`dirAnswer`).  That state is the one a fresh cache is in and every
query keeps, so every sequence of queries started with a fresh cache gets the
same answers as without a cache. -/
theorem C20_cache_preserves_answers :
    (∀ (w0 : World) (dir : GoString) (v : Option Validator) (lat lon : ℚ) (wc wn : World),
      cacheConsistent dir w0.maps.length wc → wn.disk = wc.disk →
      (DataDir.ElevationAt
        { dir := dir, options := { Cache := some (DefaultCache w0).1, RangeValidator := v } }
        lat lon wc).1 =
      (DataDir.ElevationAt { dir := dir, options := { Cache := none, RangeValidator := v } }
        lat lon wn).1 ∧
      (DataDir.ElevationAt
        { dir := dir, options := { Cache := some (DefaultCache w0).1, RangeValidator := v } }
        lat lon wc).1 = dirAnswer dir v wc.disk lat lon ∧
      cacheConsistent dir w0.maps.length (DataDir.ElevationAt
        { dir := dir, options := { Cache := some (DefaultCache w0).1, RangeValidator := v } }
        lat lon wc).2) ∧
    (∀ (w0 : World) (dir : GoString) (v : Option Validator) (qs : List (ℚ × ℚ))
      (wc wn : World),
      cacheConsistent dir w0.maps.length wc → wn.disk = wc.disk →
      DataDir.answers
        { dir := dir, options := { Cache := some (DefaultCache w0).1, RangeValidator := v } }
        qs wc =
      DataDir.answers { dir := dir, options := { Cache := none, RangeValidator := v } }
        qs wn) ∧
    (∀ (w0 : World) (dir : GoString) (v : Option Validator) (qs : List (ℚ × ℚ)),
      cacheConsistent dir w0.maps.length (DefaultCache w0).2 ∧
      DataDir.answers
        { dir := dir, options := { Cache := some (DefaultCache w0).1, RangeValidator := v } }
        qs (DefaultCache w0).2 =
      DataDir.answers { dir := dir, options := { Cache := none, RangeValidator := v } }
        qs w0) := by
  refine ⟨?_, ?_, ?_⟩
  · intro w0 dir v lat lon wc wn hinv hd
    obtain ⟨c1, c2, _⟩ := cached_answer w0 dir v lat lon wc hinv
    obtain ⟨u1, _⟩ := uncached_answer dir v lat lon wn
    exact ⟨by rw [c1, u1, hd], c1, c2⟩
  · intro w0 dir v qs wc wn hinv hd
    exact answers_eq w0 dir v qs wc wn hinv hd
  · intro w0 dir v qs
    exact ⟨cacheConsistent_fresh dir w0,
      answers_eq w0 dir v qs _ _ (cacheConsistent_fresh dir w0) rfl⟩

/-- C20 on the directory `data` of the sample world with the default
validator: a miss, a hit on the same tile, a refused latitude, a second tile
and a missing tile get the same answers with a fresh default cache and
without a cache. -/
theorem C20_cache_preserves_answers_witness :
    DataDir.answers
      { dir := "data".toList,
        options := { Cache := some (DefaultCache sampleWorld).1,
                     RangeValidator := some DefaultRangeValidator } }
      [(48.7162, 21.2613), (48.1, 21.9), (60.7162, 0), (0.5, 0.5), (10, 10)]
      (DefaultCache sampleWorld).2 =
    DataDir.answers
      { dir := "data".toList,
        options := { Cache := none, RangeValidator := some DefaultRangeValidator } }
      [(48.7162, 21.2613), (48.1, 21.9), (60.7162, 0), (0.5, 0.5), (10, 10)] sampleWorld ∧
    DataDir.answers
      { dir := "data".toList,
        options := { Cache := none, RangeValidator := some DefaultRangeValidator } }
      [(48.7162, 21.2613), (48.1, 21.9), (60.7162, 0), (0.5, 0.5), (10, 10)] sampleWorld =
    [.ok (205, 1), .ok (0, 1), .error ErrorOutOfRange, .ok (0, 3), .error notExist] :=
  ⟨C20_cache_preserves_answers.2.1 sampleWorld "data".toList (some DefaultRangeValidator)
    [(48.7162, 21.2613), (48.1, 21.9), (60.7162, 0), (0.5, 0.5), (10, 10)]
    (DefaultCache sampleWorld).2 sampleWorld (cacheConsistent_fresh _ _) rfl, by decide!⟩

/-! ## C17: concurrent first-time queries -/

/-- C17 fails for two queries: on the sample world with a fresh default cache,
two queries for `N48E021.hgt` that both do their cache get before either does
its cache add both miss and both open the file.  When both have finished the
cache holds one of the two files and the other descriptor is open and
unreferenced: one leaked handle, not zero. -/
theorem C17_counterexample :
    (DefaultCache sampleWorld).1.OnGet "N48E021.hgt".toList (DefaultCache sampleWorld).2
      = none ∧
    (runSchedule (DefaultCache sampleWorld).1 "data/N48E021.hgt".toList "N48E021.hgt".toList
      [0, 1, 0, 1, 0, 1] ([.start, .start], (DefaultCache sampleWorld).2)).1.all
      QueryPc.finished = true ∧
    (runSchedule (DefaultCache sampleWorld).1 "data/N48E021.hgt".toList "N48E021.hgt".toList
      [0, 1, 0, 1, 0, 1] ([.start, .start], (DefaultCache sampleWorld).2)).2.openFds
      = [2, 1, 0] ∧
    ((runSchedule (DefaultCache sampleWorld).1 "data/N48E021.hgt".toList "N48E021.hgt".toList
      [0, 1, 0, 1, 0, 1] ([.start, .start], (DefaultCache sampleWorld).2)).2.store 0).map
      (fun kv => kv.2.file.fd) = [2] ∧
    leakedHandles 0 (DefaultCache sampleWorld).2
      (runSchedule (DefaultCache sampleWorld).1 "data/N48E021.hgt".toList "N48E021.hgt".toList
        [0, 1, 0, 1, 0, 1] ([.start, .start], (DefaultCache sampleWorld).2)).2 = [1] ∧
    (leakedHandles 0 (DefaultCache sampleWorld).2
      (runSchedule (DefaultCache sampleWorld).1 "data/N48E021.hgt".toList "N48E021.hgt".toList
        [0, 1, 0, 1, 0, 1] ([.start, .start], (DefaultCache sampleWorld).2)).2).length ≠ 0 := by
  refine ⟨DefaultCache_fresh _ _, ?_, ?_, ?_, ?_, ?_⟩ <;> decide

/-- The query at position `i` splits the list of queries, and replacing it
replaces the middle. -/
theorem getElem?_split {α : Type} (l : List α) (i : Nat) (a : α) (h : l[i]? = some a) :
    ∃ l1 l2, l = l1 ++ a :: l2 ∧ ∀ b, l.set i b = l1 ++ b :: l2 := by
  induction l generalizing i with
  | nil => simp at h
  | cons x t ih =>
    cases i with
    | zero =>
      simp only [List.getElem?_cons_zero, Option.some.injEq] at h
      subst h
      exact ⟨[], t, rfl, fun b => rfl⟩
    | succ n =>
      simp only [List.getElem?_cons_succ] at h
      obtain ⟨l1, l2, e1, e2⟩ := ih n h
      refine ⟨x :: l1, l2, by rw [e1]; rfl, fun b => ?_⟩
      simp only [List.set_cons_succ, e2, List.cons_append]

/-- `Open` of a tile path whose disk file has a valid length: a file on the
next descriptor over that disk file, and the descriptor taken. -/
theorem Open_valid {path : GoString} {w : World} {d : DiskFile}
    (hd : w.disk path = .ok d) (hl : d.length = 2884802 ∨ d.length = 25934402) :
    ∃ f, Open path (some dirFileOptions) w =
        (.ok f, { w with nextFd := w.nextFd + 1, openFds := w.nextFd :: w.openFds }) ∧
      f.file.fd = w.nextFd ∧ f.servesDisk d := by
  rcases hl with h | h
  · refine ⟨{ file := { fd := w.nextFd, length := d.length, byteAt := d.byteAt },
               info := { Name := basename path, Size := d.length },
               resolution := Resolution3ArcSecond, size := 1201,
               options := dirFileOptions }, ?_, rfl, ⟨rfl, rfl, rfl, Or.inl ⟨h, rfl, rfl⟩⟩⟩
    simp [Open, hd, h]
  · refine ⟨{ file := { fd := w.nextFd, length := d.length, byteAt := d.byteAt },
               info := { Name := basename path, Size := d.length },
               resolution := Resolution1ArcSecond, size := 3601,
               options := dirFileOptions }, ?_, rfl, ⟨rfl, rfl, rfl, Or.inr ⟨h, rfl, rfl⟩⟩⟩
    simp [Open, hd, h]

theorem range'_succ_reverse (a k : Nat) :
    (List.range' a (k + 1)).reverse = (a + k) :: (List.range' a k).reverse := by
  rw [List.range'_concat]
  simp

theorem filter_ne_key_idem (key : GoString) (f : File) (l : List (GoString × File)) :
    ((key, f) :: l.filter (fun kv => kv.1 ≠ key)).filter (fun kv => kv.1 ≠ key)
      = l.filter (fun kv => kv.1 ≠ key) := by
  simp [List.filter_cons, List.filter_filter]

/-- The cache get of the default cache is the lookup in its store. -/
theorem DefaultCache_OnGet (wb w : World) (key : GoString) :
    (DefaultCache wb).1.OnGet key w = (w.store wb.maps.length).lookup key := rfl

theorem mem_replace {α : Type} {l1 l2 : List α} {a b x : α} (h : x ∈ l1 ++ b :: l2) :
    x = b ∨ x ∈ l1 ++ a :: l2 := by
  simp only [List.mem_append, List.mem_cons] at h ⊢
  rcases h with h | h | h
  · exact Or.inr (Or.inl h)
  · exact Or.inl h
  · exact Or.inr (Or.inr (Or.inr h))

/-- One step of one query keeps the invariant of the interleavings. -/
theorem raceInv_step (wb : World) (path key : GoString) (d : DiskFile) (w0 : World)
    (ts : List QueryPc) (w : World) (i : Nat)
    (hd : w0.disk path = .ok d) (hl : d.length = 2884802 ∨ d.length = 25934402)
    (h0 : (w0.store wb.maps.length).lookup key = none)
    (hinv : raceInv wb.maps.length key w0 ts w) :
    raceInv wb.maps.length key w0
      (scheduleStep (DefaultCache wb).1 path key (ts, w) i).1
      (scheduleStep (DefaultCache wb).1 path key (ts, w) i).2 := by
  unfold scheduleStep
  cases hi : ts[i]? with
  | none => simpa only [hi] using hinv
  | some pc =>
    obtain ⟨l1, l2, e1, e2⟩ := getElem?_split ts i pc hi
    simp only [hi, e2]
    subst e1
    obtain ⟨i1, i2, i3, i4, i5, i6, i7, i8, i9⟩ := hinv
    simp only [List.countP_append, List.countP_cons] at i3 i4 i6 i7 i8
    cases pc with
    | start =>
      simp only [QueryPc.hasOpened, QueryPc.isDoneMiss, QueryPc.isDoneHit,
        Bool.false_eq_true, if_false, Nat.add_zero] at i3 i4 i6 i7 i8
      simp only [queryStep]
      cases hg : (DefaultCache wb).1.OnGet key w with
      | some f =>
        refine ⟨i1, i2, ?_, ?_, ?_, ?_, ?_, ?_, ?_⟩
        · simpa only [List.countP_append, List.countP_cons, QueryPc.hasOpened,
            Bool.false_eq_true, if_false, Nat.add_zero] using i3
        · simpa only [List.countP_append, List.countP_cons, QueryPc.hasOpened,
            Bool.false_eq_true, if_false, Nat.add_zero] using i4
        · intro g hg2
          rcases mem_replace (a := QueryPc.start) hg2 with h | h
          · cases h
          · exact i5 g h
        · simpa only [List.countP_append, List.countP_cons, QueryPc.isDoneMiss,
            Bool.false_eq_true, if_false, Nat.add_zero] using i6
        · simpa only [List.countP_append, List.countP_cons, QueryPc.isDoneMiss,
            Bool.false_eq_true, if_false, Nat.add_zero] using i7
        · intro _
          simp only [List.countP_append, List.countP_cons, QueryPc.isDoneMiss,
            Bool.false_eq_true, if_false, Nat.add_zero]
          by_contra hz
          have hs := i6 (by omega)
          rw [DefaultCache_OnGet, hs, h0] at hg
          cases hg
        · intro err hm
          rcases mem_replace (a := QueryPc.start) hm with h | h
          · cases h
          · exact i9 err h
      | none =>
        refine ⟨i1, i2, ?_, ?_, ?_, ?_, ?_, ?_, ?_⟩
        · simpa only [List.countP_append, List.countP_cons, QueryPc.hasOpened,
            Bool.false_eq_true, if_false, Nat.add_zero] using i3
        · simpa only [List.countP_append, List.countP_cons, QueryPc.hasOpened,
            Bool.false_eq_true, if_false, Nat.add_zero] using i4
        · intro g hg2
          rcases mem_replace (a := QueryPc.start) hg2 with h | h
          · cases h
          · exact i5 g h
        · simpa only [List.countP_append, List.countP_cons, QueryPc.isDoneMiss,
            Bool.false_eq_true, if_false, Nat.add_zero] using i6
        · simpa only [List.countP_append, List.countP_cons, QueryPc.isDoneMiss,
            Bool.false_eq_true, if_false, Nat.add_zero] using i7
        · simpa only [List.countP_append, List.countP_cons, QueryPc.isDoneMiss,
            QueryPc.isDoneHit, Bool.false_eq_true, if_false, Nat.add_zero] using i8
        · intro err hm
          rcases mem_replace (a := QueryPc.start) hm with h | h
          · cases h
          · exact i9 err h
    | missed =>
      simp only [QueryPc.hasOpened, QueryPc.isDoneMiss, QueryPc.isDoneHit,
        Bool.false_eq_true, if_false, Nat.add_zero] at i3 i4 i6 i7 i8
      have hdw : w.disk path = .ok d := by rw [i2]; exact hd
      obtain ⟨f, hO, hfd, _⟩ := Open_valid hdw hl
      simp only [queryStep, hO]
      have hk : List.countP QueryPc.hasOpened l1 + (List.countP QueryPc.hasOpened l2 + 1)
          = (List.countP QueryPc.hasOpened l1 + List.countP QueryPc.hasOpened l2) + 1 := by
        omega
      refine ⟨i1, i2, ?_, ?_, ?_, ?_, ?_, ?_, ?_⟩
      · simp only [List.countP_append, List.countP_cons, QueryPc.hasOpened, if_true]
        omega
      · simp only [List.countP_append, List.countP_cons, QueryPc.hasOpened, if_true]
        rw [hk, range'_succ_reverse, ← i3, i4]
        rfl
      · intro g hg2
        rcases mem_replace (a := QueryPc.missed) hg2 with h | h
        · cases h
          simp only
          omega
        · have := i5 g h
          simp only
          omega
      · simpa only [List.countP_append, List.countP_cons, QueryPc.isDoneMiss,
          Bool.false_eq_true, if_false, Nat.add_zero] using i6
      · intro hpos
        simp only [List.countP_append, List.countP_cons, QueryPc.isDoneMiss,
          Bool.false_eq_true, if_false, Nat.add_zero] at hpos
        obtain ⟨g, e1, e2, e3⟩ := i7 hpos
        exact ⟨g, e1, e2, by simp only; omega⟩
      · simpa only [List.countP_append, List.countP_cons, QueryPc.isDoneMiss,
          QueryPc.isDoneHit, Bool.false_eq_true, if_false, Nat.add_zero] using i8
      · intro err hm
        rcases mem_replace (a := QueryPc.missed) hm with h | h
        · cases h
        · exact i9 err h
    | opened f =>
      simp only [QueryPc.hasOpened, QueryPc.isDoneMiss, QueryPc.isDoneHit,
        Bool.false_eq_true, if_false, if_true, Nat.add_zero] at i3 i4 i6 i7 i8
      simp only [queryStep]
      have hf := i5 f (by simp)
      have hst : ((DefaultCache wb).1.OnAdd key f w).store wb.maps.length
          = (key, f) :: (w.store wb.maps.length).filter (fun kv => kv.1 ≠ key) :=
        DefaultCache_store_add wb key f i1
      refine ⟨?_, i2, ?_, ?_, ?_, ?_, ?_, ?_, ?_⟩
      · simpa [DefaultCache, World.setStore] using i1
      · simpa only [List.countP_append, List.countP_cons, QueryPc.hasOpened, if_true]
          using i3
      · simpa only [List.countP_append, List.countP_cons, QueryPc.hasOpened, if_true]
          using i4
      · intro g hg2
        rcases mem_replace (a := QueryPc.opened f) hg2 with h | h
        · cases h
        · exact i5 g h
      · intro hz
        simp only [List.countP_append, List.countP_cons, QueryPc.isDoneMiss, if_true] at hz
        omega
      · intro _
        refine ⟨f, ?_, hf.1, hf.2⟩
        rw [hst]
        by_cases hz : List.countP QueryPc.isDoneMiss l1 + List.countP QueryPc.isDoneMiss l2 = 0
        · rw [i6 hz]
        · obtain ⟨g, e1, _, _⟩ := i7 (by omega)
          rw [e1, filter_ne_key_idem]
      · intro _
        simp only [List.countP_append, List.countP_cons, QueryPc.isDoneMiss, if_true]
        omega
      · intro err hm
        rcases mem_replace (a := QueryPc.opened f) hm with h | h
        · cases h
        · exact i9 err h
    | doneHit => exact ⟨i1, i2, by simpa only [List.countP_append, List.countP_cons] using i3,
        by simpa only [List.countP_append, List.countP_cons] using i4, i5,
        by simpa only [List.countP_append, List.countP_cons] using i6,
        by simpa only [List.countP_append, List.countP_cons] using i7,
        by simpa only [List.countP_append, List.countP_cons] using i8, i9⟩
    | doneMiss => exact ⟨i1, i2, by simpa only [List.countP_append, List.countP_cons] using i3,
        by simpa only [List.countP_append, List.countP_cons] using i4, i5,
        by simpa only [List.countP_append, List.countP_cons] using i6,
        by simpa only [List.countP_append, List.countP_cons] using i7,
        by simpa only [List.countP_append, List.countP_cons] using i8, i9⟩
    | failed err => exact absurd (by simp) (i9 err)

/-- Every schedule keeps the invariant. -/
theorem raceInv_run (wb : World) (path key : GoString) (d : DiskFile) (w0 : World)
    (hd : w0.disk path = .ok d) (hl : d.length = 2884802 ∨ d.length = 25934402)
    (h0 : (w0.store wb.maps.length).lookup key = none)
    (sched : List Nat) (ts : List QueryPc) (w : World)
    (hinv : raceInv wb.maps.length key w0 ts w) :
    raceInv wb.maps.length key w0
      (runSchedule (DefaultCache wb).1 path key sched (ts, w)).1
      (runSchedule (DefaultCache wb).1 path key sched (ts, w)).2 := by
  induction sched generalizing ts w with
  | nil => exact hinv
  | cons i t ih =>
    simp only [runSchedule, List.foldl_cons] at ih ⊢
    exact ih _ _ (raceInv_step wb path key d w0 ts w i hd hl h0 hinv)

/-- No step changes the number of queries. -/
theorem scheduleStep_length (cache : Cache) (path key : GoString)
    (cfg : List QueryPc × World) (i : Nat) :
    (scheduleStep cache path key cfg i).1.length = cfg.1.length := by
  unfold scheduleStep
  cases cfg.1[i]? with
  | none => rfl
  | some pc => simp

theorem runSchedule_length (cache : Cache) (path key : GoString) (sched : List Nat)
    (cfg : List QueryPc × World) :
    (runSchedule cache path key sched cfg).1.length = cfg.1.length := by
  induction sched generalizing cfg with
  | nil => rfl
  | cons i t ih =>
    simp only [runSchedule, List.foldl_cons] at ih ⊢
    rw [ih, scheduleStep_length]

/-- The invariant holds before any query has begun. -/
theorem raceInv_init (id : Nat) (key : GoString) (w0 : World) (n : Nat)
    (h : id < w0.maps.length) :
    raceInv id key w0 (List.replicate n QueryPc.start) w0 := by
  have c1 : List.countP QueryPc.hasOpened (List.replicate n QueryPc.start) = 0 := by
    simp [List.countP_replicate, QueryPc.hasOpened]
  have c2 : List.countP QueryPc.isDoneMiss (List.replicate n QueryPc.start) = 0 := by
    simp [List.countP_replicate, QueryPc.isDoneMiss]
  have c3 : List.countP QueryPc.isDoneHit (List.replicate n QueryPc.start) = 0 := by
    simp [List.countP_replicate, QueryPc.isDoneHit]
  refine ⟨h, rfl, by rw [c1]; rfl, by rw [c1]; rfl, ?_, fun _ => rfl, ?_, ?_, ?_⟩
  · intro f hf
    have := (List.mem_replicate.1 hf).2
    cases this
  · intro hp
    rw [c2] at hp
    exact absurd hp (by decide)
  · intro hp
    rw [c3] at hp
    exact absurd hp (by decide)
  · intro err hf
    have := (List.mem_replicate.1 hf).2
    cases this

/-- The leaked descriptors, counted: of the `k` descriptors taken since the
start all are open, one is held by the file cached under the key, and no older
file of the store and no older descriptor counts. -/
theorem leaked_length (a k : Nat) (O : List Nat) (S : List (GoString × File))
    (key : GoString) (f : File) (hx : a ≤ f.file.fd ∧ f.file.fd < a + k)
    (hO : ∀ fd ∈ O, fd < a) (hS : ∀ kv ∈ S, kv.2.file.fd < a) :
    (((List.range' a k).reverse ++ O).filter (fun fd =>
      decide (a ≤ fd) && !(((key, f) :: S).any (fun kv => kv.2.file.fd == fd)))).length
      = k - 1 := by
  rw [List.filter_append, List.length_append]
  have e2 : O.filter (fun fd =>
      decide (a ≤ fd) && !(((key, f) :: S).any (fun kv => kv.2.file.fd == fd))) = [] := by
    rw [List.filter_eq_nil_iff]
    intro fd hfd
    have := hO fd hfd
    simp only [Bool.and_eq_true, decide_eq_true_eq, not_and]
    intro h
    omega
  have e1 : (List.range' a k).reverse.filter (fun fd =>
      decide (a ≤ fd) && !(((key, f) :: S).any (fun kv => kv.2.file.fd == fd)))
      = (List.range' a k).reverse.filter (· != f.file.fd) := by
    apply List.filter_congr
    intro fd hfd
    have hr : a ≤ fd ∧ fd < a + k := by
      simpa using hfd
    have hn : S.any (fun kv => kv.2.file.fd == fd) = false := by
      rw [List.any_eq_false]
      intro kv hkv
      have := hS kv hkv
      simp only [beq_iff_eq]
      omega
    simp only [List.any_cons, hn, Bool.or_false, hr.1, decide_True, Bool.true_and]
    by_cases he : f.file.fd = fd
    · simp [he]
    · have he2 : fd ≠ f.file.fd := fun e => he e.symm
      have b1 : (f.file.fd == fd) = false := beq_false_of_ne he
      have b2 : (fd != f.file.fd) = true := bne_iff_ne.2 he2
      rw [b1, b2]
      rfl
  have hnd : (List.range' a k).reverse.Nodup :=
    List.nodup_reverse.2 (List.nodup_range' a k)
  have hmem : f.file.fd ∈ (List.range' a k).reverse := by
    simpa using hx
  rw [e1, e2, ← List.Nodup.erase_eq_filter hnd, List.length_erase_of_mem hmem]
  simp

/-- What the invariant gives once every query has finished. -/
theorem race_outcome (id : Nat) (key : GoString) (w0 : World) (ts : List QueryPc) (w : World)
    (hw0 : w0.fdsBelowNext id) (hne : 1 ≤ ts.length)
    (hinv : raceInv id key w0 ts w) (hfin : ts.all QueryPc.finished = true) :
    (∃ f, (w.store id).lookup key = some f ∧ f.file.fd ∈ w.openFds ∧
      ((w.store id).filter (fun kv => kv.1 = key)).length = 1) ∧
    1 ≤ ts.countP QueryPc.isDoneMiss ∧
    ts.countP QueryPc.isDoneMiss ≤ ts.length ∧
    w.nextFd = w0.nextFd + ts.countP QueryPc.isDoneMiss ∧
    (leakedHandles id w0 w).length = ts.countP QueryPc.isDoneMiss - 1 := by
  obtain ⟨i1, i2, i3, i4, i5, i6, i7, i8, i9⟩ := hinv
  rw [List.all_eq_true] at hfin
  have hcnt : ts.countP QueryPc.hasOpened = ts.countP QueryPc.isDoneMiss := by
    apply List.countP_congr
    intro pc hpc
    have hf := hfin pc hpc
    cases pc <;> simp [QueryPc.hasOpened, QueryPc.isDoneMiss, QueryPc.finished] at hf ⊢
  have hpos : 0 < ts.countP QueryPc.isDoneMiss := by
    cases ts with
    | nil => simp at hne
    | cons pc t =>
      have hf := hfin pc (List.mem_cons_self _ _)
      cases pc with
      | start => simp [QueryPc.finished] at hf
      | missed => simp [QueryPc.finished] at hf
      | opened f => simp [QueryPc.finished] at hf
      | doneHit =>
        apply i8
        rw [List.countP_pos_iff]
        exact ⟨QueryPc.doneHit, List.mem_cons_self _ _, rfl⟩
      | doneMiss =>
        rw [List.countP_pos_iff]
        exact ⟨QueryPc.doneMiss, List.mem_cons_self _ _, rfl⟩
      | failed err => exact absurd (List.mem_cons_self _ _) (i9 err)
  obtain ⟨f, hst, hf1, hf2⟩ := i7 hpos
  rw [hcnt] at i3 i4
  refine ⟨⟨f, ?_, ?_, ?_⟩, hpos, List.countP_le_length _, i3, ?_⟩
  · rw [hst]
    simp [List.lookup]
  · rw [i4, List.mem_append, List.mem_reverse, List.mem_range'_1]
    exact Or.inl ⟨hf1, by omega⟩
  · rw [hst, List.filter_cons]
    have : ((w0.store id).filter (fun kv => kv.1 ≠ key)).filter (fun kv => kv.1 = key) = [] := by
      rw [List.filter_eq_nil_iff]
      intro kv hkv
      have := (List.mem_filter.1 hkv).2
      simpa using this
    simp [this]
  · unfold leakedHandles
    rw [i4, hst]
    apply leaked_length
    · exact ⟨hf1, by omega⟩
    · exact hw0.1
    · intro kv hkv
      exact hw0.2 kv (List.mem_filter.1 hkv).1

/-- The steps are those of the source: taken without interruption, the three
steps of a query leave the world `DataDir.ElevationAt` leaves, and the query
has finished. -/
theorem queryRun_eq_ElevationAt {h : DataDir} {cache : Cache} {lat lon : ℚ} (w : World)
    (hc : h.options.Cache = some cache)
    (hv : ∀ v, h.options.RangeValidator = some v → v lat lon = none) :
    (queryRun cache (h.tilePath lat lon) (fileName lat lon) w).2 = (h.ElevationAt lat lon w).2 ∧
    (queryRun cache (h.tilePath lat lon) (fileName lat lon) w).1.finished = true := by
  rw [DataDir_cached w hc hv]
  unfold queryRun
  cases hg : cache.OnGet (fileName lat lon) w with
  | some f => simp [queryStep, hg, QueryPc.finished]
  | none =>
    cases hO : Open (h.tilePath lat lon) (some dirFileOptions) w with
    | mk r w1 =>
      cases r with
      | error err => simp [queryStep, hg, hO, QueryPc.finished]
      | ok f => simp [queryStep, hg, hO, QueryPc.finished]

/-- C17, amended: for every number `n >= 1` of first-time queries for the same
uncached key whose tile file is on disk with a valid length, with the default
cache, under every interleaving of their cache-get, open and cache-add steps,
once all queries have finished the cache holds exactly one file under the key
and its descriptor is open; every query whose cache get missed has opened a
descriptor of its own and none was closed, so the number of leaked descriptors
is the number of queries that missed minus one: between 0 and `n - 1`, and 0
exactly when one query missed.  The steps are those of
`DataDir.ElevationAt`. -/
theorem C17_one_cached_handle_extra_misses_leak :
    (∀ (wb w0 : World) (path key : GoString) (d : DiskFile) (n : Nat) (sched : List Nat)
      (ts : List QueryPc) (w : World),
      wb.maps.length < w0.maps.length →
      (DefaultCache wb).1.OnGet key w0 = none →
      w0.disk path = .ok d → (d.length = 2884802 ∨ d.length = 25934402) →
      w0.fdsBelowNext wb.maps.length →
      1 ≤ n →
      runSchedule (DefaultCache wb).1 path key sched (List.replicate n QueryPc.start, w0)
        = (ts, w) →
      ts.all QueryPc.finished = true →
      (∃ f, (DefaultCache wb).1.OnGet key w = some f ∧ f.file.fd ∈ w.openFds ∧
        ((w.store wb.maps.length).filter (fun kv => kv.1 = key)).length = 1) ∧
      ts.length = n ∧
      1 ≤ ts.countP QueryPc.isDoneMiss ∧
      ts.countP QueryPc.isDoneMiss ≤ n ∧
      w.nextFd = w0.nextFd + ts.countP QueryPc.isDoneMiss ∧
      (leakedHandles wb.maps.length w0 w).length = ts.countP QueryPc.isDoneMiss - 1 ∧
      ((leakedHandles wb.maps.length w0 w).length = 0 ↔ ts.countP QueryPc.isDoneMiss = 1)) ∧
    (∀ (h : DataDir) (cache : Cache) (lat lon : ℚ) (w : World),
      h.options.Cache = some cache →
      (∀ v, h.options.RangeValidator = some v → v lat lon = none) →
      (queryRun cache (h.dir ++ [PathSeparator] ++ fileName lat lon) (fileName lat lon) w).2
        = (h.ElevationAt lat lon w).2) := by
  refine ⟨?_, ?_⟩
  · intro wb w0 path key d n sched ts w hlen hmiss hd hl hw0 hn hrun hfin
    have hinv := raceInv_run wb path key d w0 hd hl hmiss sched _ _
      (raceInv_init wb.maps.length key w0 n hlen)
    have hlen2 := runSchedule_length (DefaultCache wb).1 path key sched
      (List.replicate n QueryPc.start, w0)
    rw [hrun] at hinv hlen2
    simp only [List.length_replicate] at hlen2
    obtain ⟨o1, o2, o3, o4, o5⟩ := race_outcome wb.maps.length key w0 ts w hw0
      (by rw [hlen2]; exact hn) hinv hfin
    refine ⟨o1, hlen2, o2, by rw [← hlen2]; exact o3, o4, o5, ?_⟩
    rw [o5]
    omega
  · intro h cache lat lon w hc hv
    exact (queryRun_eq_ElevationAt w hc hv).1

/-- C17, amended, on the sample world with a fresh default cache and two
queries for `N48E021.hgt`: when both miss, one descriptor leaks; when the
second starts after the first has finished, none does. -/
theorem C17_one_cached_handle_extra_misses_leak_witness :
    ((runSchedule (DefaultCache sampleWorld).1 "data/N48E021.hgt".toList "N48E021.hgt".toList
        [0, 1, 0, 1, 0, 1] ([.start, .start], (DefaultCache sampleWorld).2)).1.countP
      QueryPc.isDoneMiss = 2 ∧
    (leakedHandles 0 (DefaultCache sampleWorld).2
      (runSchedule (DefaultCache sampleWorld).1 "data/N48E021.hgt".toList "N48E021.hgt".toList
        [0, 1, 0, 1, 0, 1] ([.start, .start], (DefaultCache sampleWorld).2)).2).length
      = (runSchedule (DefaultCache sampleWorld).1 "data/N48E021.hgt".toList
          "N48E021.hgt".toList [0, 1, 0, 1, 0, 1]
          ([.start, .start], (DefaultCache sampleWorld).2)).1.countP QueryPc.isDoneMiss - 1) ∧
    (runSchedule (DefaultCache sampleWorld).1 "data/N48E021.hgt".toList "N48E021.hgt".toList
        [0, 0, 0, 1, 1, 1] ([.start, .start], (DefaultCache sampleWorld).2)).1.countP
      QueryPc.isDoneMiss = 1 ∧
    leakedHandles 0 (DefaultCache sampleWorld).2
      (runSchedule (DefaultCache sampleWorld).1 "data/N48E021.hgt".toList "N48E021.hgt".toList
        [0, 0, 0, 1, 1, 1] ([.start, .start], (DefaultCache sampleWorld).2)).2 = [] :=
  ⟨⟨by decide,
    (C17_one_cached_handle_extra_misses_leak.1 sampleWorld (DefaultCache sampleWorld).2
      "data/N48E021.hgt".toList "N48E021.hgt".toList sampleData 2 [0, 1, 0, 1, 0, 1] _ _
      (by decide) (DefaultCache_fresh _ _) rfl (Or.inr rfl)
      ⟨by decide, by decide⟩ (by decide) rfl (by decide)).2.2.2.2.2.1⟩,
    by decide, by decide⟩

end hgt
